import Mathlib

/-!
# ViewManager.cpp: camera control and per-frame view update

A shallow embedding of `7-1_FinalProject/Source/ViewManager.cpp`.

* `float` and `double` values are rationals and arithmetic on them is exact,
  with one exception: `Mouse_Position_Callback` mixes `double` and `float`, so
  there the conversion to `float` (`toFloat`) and the rounding of each `double`
  result (`toDouble`) are IEEE 754 round-to-nearest-even.  NaN, infinities and
  overflow are outside the model.
* The variables of the anonymous namespace are the record `Globals`; every
  function takes the record and returns the updated one.
* The `Camera` class is declared outside this file.  Its four public members
  that the file reads or writes are fields of `Camera`; everything else the
  class holds is the field `rest`, and its constructor and the three methods the
  file calls are the parameter `CameraClass`.
* Calls into GLFW / OpenGL / `std::cout` are returned as a list of `HostCall`,
  calls into the `ShaderManager` as a list of `ShaderCall`, oldest first.
* Dereferencing a null `g_pCamera` is the result `none`.
-/

namespace CS330

/-! ## Data model -/

/-- The type glm::vec3, with exact components. -/
structure Vec3 where
  x : ℚ
  y : ℚ
  z : ℚ
deriving DecidableEq

/-- Squared Euclidean length of a vector (glm::length2). -/
def Vec3.length2 (v : Vec3) : ℚ :=
  v.x * v.x + v.y * v.y + v.z * v.z

/-- The enum `Camera_Movement` passed to `Camera::ProcessKeyboard`. -/
inductive Camera_Movement where
  | FORWARD
  | BACKWARD
  | LEFT
  | RIGHT
  | UP
  | DOWN
deriving DecidableEq

/-- A `Camera` object: the public members `ViewManager.cpp` touches, and the
remaining members of the class as `rest`. -/
structure Camera (E : Type) where
  Position : Vec3
  Front : Vec3
  Up : Vec3
  Zoom : ℚ
  rest : E

/-- The part of the `Camera` class used by `ViewManager.cpp`: the default
constructor and three methods.  `M` is the type glm::mat4. -/
structure CameraClass (E M : Type) where
  construct : Camera E
  ProcessKeyboard : Camera_Movement → ℚ → Camera E → Camera E
  ProcessMouseMovement : ℚ → ℚ → Camera E → Camera E
  GetViewMatrix : Camera E → M

/-- The two GLM functions used by `PrepareSceneView`. -/
structure Glm (M : Type) where
  radians : ℚ → ℚ
  perspective : ℚ → ℚ → ℚ → ℚ → M

/-- A non-null `GLFWwindow*`. -/
abbrev GLFWwindow := Nat

/-- A non-null `ShaderManager*`. -/
abbrev ShaderManagerPtr := Nat

/-- The keys polled by `ProcessKeyboardEvents`. -/
inductive Key where
  | GLFW_KEY_ESCAPE
  | GLFW_KEY_W
  | GLFW_KEY_S
  | GLFW_KEY_A
  | GLFW_KEY_D
  | GLFW_KEY_Q
  | GLFW_KEY_E
  | GLFW_KEY_1
  | GLFW_KEY_2
deriving DecidableEq

/-- The static member functions registered as GLFW callbacks. -/
inductive Callback where
  | Mouse_Position_Callback
  | Scroll
deriving DecidableEq

/-- The OpenGL enumerants used by `CreateDisplayWindow`. -/
inductive GLenum where
  | GL_BLEND
  | GL_SRC_ALPHA
  | GL_ONE_MINUS_SRC_ALPHA
deriving DecidableEq

/-- A call into the host: GLFW, OpenGL or standard output. -/
inductive HostCall where
  | glfwCreateWindow (width height : Int) (title : String)
  | cout (text : String)
  | glfwTerminate
  | glfwMakeContextCurrent (window : GLFWwindow)
  | glfwSetCursorPosCallback (window : GLFWwindow) (callback : Callback)
  | glfwSetScrollCallback (window : GLFWwindow) (callback : Callback)
  | glEnable (cap : GLenum)
  | glBlendFunc (sfactor dfactor : GLenum)
  | glfwSetWindowShouldClose (window : Option GLFWwindow) (value : Bool)
deriving DecidableEq

/-- A call into the `ShaderManager` collaborator. -/
inductive ShaderCall (M : Type) where
  | setMat4Value (shader : ShaderManagerPtr) (name : String) (value : M)
  | setVec3Value (shader : ShaderManagerPtr) (name : String) (value : Vec3)

/-- The variables of the anonymous namespace of `ViewManager.cpp`. -/
structure Globals (E : Type) where
  g_pCamera : Option (Camera E)
  gLastX : ℚ
  gLastY : ℚ
  gFirstMouse : Bool
  gDeltaTime : ℚ
  gLastFrame : ℚ
  bOrthographicProjection : Bool
  m_CameraSpeed : ℚ

/-- The data members of a `ViewManager` object. -/
structure ViewManager where
  m_pShaderManager : Option ShaderManagerPtr
  m_pWindow : Option GLFWwindow
deriving DecidableEq

def WINDOW_WIDTH : Int := 1000

def WINDOW_HEIGHT : Int := 800

def g_ViewName : String := "view"

def g_ProjectionName : String := "projection"

/-- The initialisers of the anonymous namespace: the globals at program start. -/
def Globals.initial (E : Type) : Globals E where
  g_pCamera := none
  gLastX := (WINDOW_WIDTH : ℚ) / 2
  gLastY := (WINDOW_HEIGHT : ℚ) / 2
  gFirstMouse := true
  gDeltaTime := 0
  gLastFrame := 0
  bOrthographicProjection := false
  m_CameraSpeed := 1

/-! ## Rounding to `float` and `double` -/

/-- The integer nearest to `y`, the even one of the two when `y` lies half way
between two integers. -/
def roundHalfEven (y : ℚ) : ℤ :=
  let n := ⌊y⌋
  let r := y - n
  if r < 1 / 2 then n
  else if 1 / 2 < r then n + 1
  else if n % 2 = 0 then n else n + 1

/-- IEEE 754 round-to-nearest-even into the binary format with `p` significand
bits and least normal exponent `emin`: the value is rounded to a multiple of the
spacing `2 ^ (max e emin - (p - 1))`, where `2 ^ e ≤ |x| < 2 ^ (e + 1)`.  Values
beyond the largest finite number (overflow) are outside the model. -/
def roundNearestEven (p : ℕ) (emin : ℤ) (x : ℚ) : ℚ :=
  if x = 0 then 0
  else
    let ulp : ℚ := 2 ^ (max (Int.log 2 |x|) emin - ((p : ℤ) - 1))
    (roundHalfEven (x / ulp) : ℚ) * ulp

/-- The nearest `float` (binary32: 24 significand bits, least normal exponent -126). -/
def toFloat (x : ℚ) : ℚ := roundNearestEven 24 (-126) x

/-- The nearest `double` (binary64: 53 significand bits, least normal exponent -1022). -/
def toDouble (x : ℚ) : ℚ := roundNearestEven 53 (-1022) x

/-- The value is exactly a `float` (and a `double`): neither rounding changes it. -/
def ExactFloat (v : ℚ) : Prop := toDouble v = v ∧ toFloat v = v

/-! ## Operations -/

variable {E M : Type}

/-- The constructor `ViewManager::ViewManager(ShaderManager*)`. -/
def ViewManager.Constructor (C : CameraClass E M) (pShaderManager : Option ShaderManagerPtr)
    (g : Globals E) : ViewManager × Globals E :=
  let cam := C.construct
  let cam := { cam with Position := ⟨1 / 2, 11 / 2, 10⟩ }
  let cam := { cam with Front := ⟨0, -(1 / 2), -2⟩ }
  let cam := { cam with Up := ⟨0, 1, 0⟩ }
  let cam := { cam with Zoom := 80 }
  ({ m_pShaderManager := pShaderManager, m_pWindow := none },
   { g with g_pCamera := some cam, m_CameraSpeed := 1 })

/-- The destructor: both members are nulled and the camera is deleted. -/
def ViewManager.Destructor (_vm : ViewManager) (g : Globals E) : ViewManager × Globals E :=
  ({ m_pShaderManager := none, m_pWindow := none }, { g with g_pCamera := none })

/-- The method `CreateDisplayWindow(windowTitle)`.  `created` is what
`glfwCreateWindow` returned (`none` for a null handle).  The result is the
returned pointer, the updated object and the host calls made. -/
def ViewManager.CreateDisplayWindow (vm : ViewManager) (windowTitle : String)
    (created : Option GLFWwindow) : Option GLFWwindow × ViewManager × List HostCall :=
  let request := HostCall.glfwCreateWindow WINDOW_WIDTH WINDOW_HEIGHT windowTitle
  match created with
  | none =>
    (none, vm, [request, HostCall.cout "Failed to create GLFW window", HostCall.glfwTerminate])
  | some window =>
    (some window, { vm with m_pWindow := some window },
     [request,
      HostCall.glfwMakeContextCurrent window,
      HostCall.glfwSetCursorPosCallback window Callback.Mouse_Position_Callback,
      HostCall.glfwSetScrollCallback window Callback.Scroll,
      HostCall.glEnable GLenum.GL_BLEND,
      HostCall.glBlendFunc GLenum.GL_SRC_ALPHA GLenum.GL_ONE_MINUS_SRC_ALPHA])

/-- The callback `Mouse_Position_Callback(window, xMousePos, yMousePos)`; the
window argument is unused by the source and omitted.  `xMousePos` and
`yMousePos` are `double`, so the products and the two differences are computed
in `double`; `gLastX`, `gLastY`, `xOffset` and `yOffset` are `float`, so each
assignment to them narrows. -/
def ViewManager.Mouse_Position_Callback (C : CameraClass E M) (xMousePos yMousePos : ℚ)
    (g : Globals E) : Option (Globals E) :=
  let xMousePos := toDouble (xMousePos * g.m_CameraSpeed)
  let yMousePos := toDouble (yMousePos * g.m_CameraSpeed)
  let g := if g.gFirstMouse then
      { g with gLastX := toFloat xMousePos, gLastY := toFloat yMousePos, gFirstMouse := false }
    else g
  let xOffset := toFloat (toDouble (xMousePos - g.gLastX))
  let yOffset := toFloat (toDouble (g.gLastY - yMousePos))
  let g := { g with gLastX := toFloat xMousePos, gLastY := toFloat yMousePos }
  match g.g_pCamera with
  | none => none
  | some cam => some { g with g_pCamera := some (C.ProcessMouseMovement xOffset yOffset cam) }

/-- The method `ProcessKeyboardEvents()`.  `pressed k` says whether
`glfwGetKey(m_pWindow, k) == GLFW_PRESS`. -/
def ViewManager.ProcessKeyboardEvents (C : CameraClass E M) (vm : ViewManager)
    (pressed : Key → Bool) (g : Globals E) : Globals E × List HostCall :=
  let out : List HostCall :=
    if pressed Key.GLFW_KEY_ESCAPE then [HostCall.glfwSetWindowShouldClose vm.m_pWindow true]
    else []
  match g.g_pCamera with
  | none => (g, out)
  | some cam =>
    let velocity := g.gDeltaTime * g.m_CameraSpeed
    let cam := if pressed Key.GLFW_KEY_W then
        C.ProcessKeyboard Camera_Movement.FORWARD velocity cam
      else cam
    let cam := if pressed Key.GLFW_KEY_S then
        C.ProcessKeyboard Camera_Movement.BACKWARD velocity cam
      else cam
    let cam := if pressed Key.GLFW_KEY_A then
        C.ProcessKeyboard Camera_Movement.LEFT velocity cam
      else cam
    let cam := if pressed Key.GLFW_KEY_D then
        C.ProcessKeyboard Camera_Movement.RIGHT velocity cam
      else cam
    let cam := if pressed Key.GLFW_KEY_Q then
        C.ProcessKeyboard Camera_Movement.UP velocity cam
      else cam
    let cam := if pressed Key.GLFW_KEY_E then
        C.ProcessKeyboard Camera_Movement.DOWN velocity cam
      else cam
    let g := { g with g_pCamera := some cam }
    let (g, out) :=
      if pressed Key.GLFW_KEY_1 then
        ({ g with bOrthographicProjection := true }, out ++ [HostCall.cout "Pressed 1"])
      else (g, out)
    let g := if pressed Key.GLFW_KEY_2 then { g with bOrthographicProjection := false } else g
    (g, out)

/-- The callback `Scroll(window, xoffset, yoffset)`; the window argument is
unused by the source and omitted. -/
def ViewManager.Scroll (_xoffset yoffset : ℚ) (g : Globals E) : Globals E :=
  let g := { g with m_CameraSpeed := g.m_CameraSpeed + yoffset * (1 / 10) }
  { g with m_CameraSpeed := max (1 / 10) g.m_CameraSpeed }

/-- The method `PrepareSceneView()`.  `glfwGetTime` is the value of
`currentFrame`: the clock read at entry, as the `float` it is stored in.  The
result is the updated globals, the host calls and the shader calls. -/
def ViewManager.PrepareSceneView (C : CameraClass E M) (glm : Glm M) (vm : ViewManager)
    (glfwGetTime : ℚ) (pressed : Key → Bool) (g : Globals E) :
    Option (Globals E × List HostCall × List (ShaderCall M)) :=
  let currentFrame := glfwGetTime
  let g := { g with gDeltaTime := currentFrame - g.gLastFrame }
  let g := { g with gLastFrame := currentFrame }
  let (g, out) := ViewManager.ProcessKeyboardEvents C vm pressed g
  match g.g_pCamera with
  | none => none
  | some cam =>
    let view := C.GetViewMatrix cam
    let projection :=
      glm.perspective (glm.radians cam.Zoom) ((WINDOW_WIDTH : ℚ) / (WINDOW_HEIGHT : ℚ)) (1 / 10) 100
    match vm.m_pShaderManager with
    | some shader =>
      some (g, out,
        [ShaderCall.setMat4Value shader g_ViewName view,
         ShaderCall.setMat4Value shader g_ProjectionName projection,
         ShaderCall.setVec3Value shader "viewPosition" cam.Position])
    | none => some (g, out, [])

/-! ## Event sequences -/

/-- A sequence of scroll events `(xoffset, yoffset)` delivered to `Scroll` in order. -/
def scrolls (evs : List (ℚ × ℚ)) (g : Globals E) : Globals E :=
  evs.foldl (fun g e => ViewManager.Scroll e.1 e.2 g) g

/-- The calls that reach a live controller. -/
inductive Event where
  | Scroll (xoffset yoffset : ℚ)
  | Mouse_Position_Callback (xMousePos yMousePos : ℚ)
  | ProcessKeyboardEvents (pressed : Key → Bool)
  | PrepareSceneView (glfwGetTime : ℚ) (pressed : Key → Bool)

/-- The effect of one event on the globals. -/
def step (C : CameraClass E M) (glm : Glm M) (vm : ViewManager) :
    Event → Globals E → Option (Globals E)
  | Event.Scroll xoffset yoffset, g => some (ViewManager.Scroll xoffset yoffset g)
  | Event.Mouse_Position_Callback x y, g => ViewManager.Mouse_Position_Callback C x y g
  | Event.ProcessKeyboardEvents pressed, g =>
    some (ViewManager.ProcessKeyboardEvents C vm pressed g).1
  | Event.PrepareSceneView t pressed, g =>
    (ViewManager.PrepareSceneView C glm vm t pressed g).map Prod.fst

/-- The effect of a sequence of events, in order. -/
def run (C : CameraClass E M) (glm : Glm M) (vm : ViewManager) :
    List Event → Globals E → Option (Globals E)
  | [], g => some g
  | e :: es, g => (step C glm vm e g).bind (run C glm vm es)

/-! ## A camera that records what it is told -/

/-- A method call received by the recording camera. -/
inductive CameraCall where
  | ProcessKeyboard (direction : Camera_Movement) (velocity : ℚ)
  | ProcessMouseMovement (xoffset yoffset : ℚ)
deriving DecidableEq

/-- A matrix value kept as the expression that produced it. -/
inductive SymMat4 where
  | view (Position Front Up : Vec3) (received : List CameraCall)
  | perspective (fovy aspect near far : ℚ)
deriving DecidableEq

/-- A camera class whose methods only append the call to the object's log
(oldest first) and whose view matrix is a snapshot of the object. -/
def Recorder : CameraClass (List CameraCall) SymMat4 where
  construct := { Position := ⟨0, 0, 0⟩, Front := ⟨0, 0, -1⟩, Up := ⟨0, 1, 0⟩, Zoom := 45, rest := [] }
  ProcessKeyboard := fun d v cam => { cam with rest := cam.rest ++ [CameraCall.ProcessKeyboard d v] }
  ProcessMouseMovement := fun dx dy cam =>
    { cam with rest := cam.rest ++ [CameraCall.ProcessMouseMovement dx dy] }
  GetViewMatrix := fun cam => SymMat4.view cam.Position cam.Front cam.Up cam.rest

/-- GLM with `radians` left as the identity on the degree value and
`perspective` kept as an expression. -/
def SymGlm : Glm SymMat4 where
  radians := fun degrees => degrees
  perspective := SymMat4.perspective

/-- The log of the camera a state points to (`none` for a null camera). -/
def received (g : Globals (List CameraCall)) : Option (List CameraCall) :=
  g.g_pCamera.map Camera.rest

/-! ## Definitions used to state the properties -/

/-- Largest sum of a suffix of the list, the empty suffix included. -/
def maxTailSum : List ℚ → ℚ
  | [] => 0
  | y :: ys => max (y + ys.sum) (maxTailSum ys)

/-- Whether the event is a cursor-position callback. -/
def Event.isMouse : Event → Bool
  | Event.Mouse_Position_Callback _ _ => true
  | _ => false

/-- Whether the event is a scroll callback. -/
def Event.isScroll : Event → Bool
  | Event.Scroll _ _ => true
  | _ => false

/-- The key state in which no key is down. -/
def noKeys : Key → Bool := fun _ => false

/-- The key state in which exactly the given key is down. -/
def onlyKey (k : Key) : Key → Bool := fun k' => decide (k' = k)

/-- From the spec (4.1, pollKeyboard): the six translation keys with the
direction each one commands, in the documented order
forward, back, left, right, up, down. -/
def translationKeys : List (Key × Camera_Movement) :=
  [(Key.GLFW_KEY_W, Camera_Movement.FORWARD),
   (Key.GLFW_KEY_S, Camera_Movement.BACKWARD),
   (Key.GLFW_KEY_A, Camera_Movement.LEFT),
   (Key.GLFW_KEY_D, Camera_Movement.RIGHT),
   (Key.GLFW_KEY_Q, Camera_Movement.UP),
   (Key.GLFW_KEY_E, Camera_Movement.DOWN)]

/-- From the spec: one movement command per pressed translation key, each with
the same magnitude, in the documented order. -/
def movementCommands (pressed : Key → Bool) (magnitude : ℚ) : List (Camera_Movement × ℚ) :=
  (translationKeys.filter (fun kd => pressed kd.1)).map (fun kd => (kd.2, magnitude))

/-- The camera after it has been given the movement commands one after another. -/
def issue (C : CameraClass E M) (commands : List (Camera_Movement × ℚ)) (cam : Camera E) :
    Camera E :=
  commands.foldl (fun cam c => C.ProcessKeyboard c.1 c.2 cam) cam

/-- The cursor position carried by a mouse event. -/
def Event.mousePos : Event → Option (ℚ × ℚ)
  | Event.Mouse_Position_Callback x y => some (x, y)
  | _ => none

/-- The position of the last mouse event of the sequence, if it has one. -/
def lastMouse : List Event → Option (ℚ × ℚ)
  | [] => none
  | e :: es =>
    match lastMouse es with
    | some q => some q
    | none => e.mousePos

/-- The mouse-tracking variables agree with `last`, the position of the last
mouse event seen so far: flag set when there was none, else flag cleared and
that position stored. -/
def Tracks (g : Globals E) (last : Option (ℚ × ℚ)) : Prop :=
  (last = none → g.gFirstMouse = true) ∧
  (∀ q, last = some q → g.gFirstMouse = false ∧ g.gLastX = q.1 ∧ g.gLastY = q.2)

/-! ## Scroll: camera speed -/

theorem maxTailSum_nonneg (ys : List ℚ) : 0 ≤ maxTailSum ys := by
  induction ys with
  | nil => simp [maxTailSum]
  | cons y ys ih => exact le_max_of_le_right ih

theorem sum_le_maxTailSum (ys : List ℚ) : ys.sum ≤ maxTailSum ys := by
  cases ys with
  | nil => simp [maxTailSum]
  | cons y ys => simp [maxTailSum]

theorem maxTailSum_le (B : ℚ) (hB : 0 ≤ B) :
    ∀ ys : List ℚ, (∀ k, k < ys.length → (ys.drop k).sum ≤ B) → maxTailSum ys ≤ B := by
  intro ys
  induction ys with
  | nil => intro _; simpa [maxTailSum] using hB
  | cons y ys ih =>
    intro h
    have h0 := h 0 (by simp)
    have hrest : ∀ k, k < ys.length → (ys.drop k).sum ≤ B := by
      intro k hk
      have := h (k + 1) (by simpa using hk)
      simpa using this
    simp only [List.drop_zero, List.sum_cons] at h0
    exact max_le h0 (ih hrest)

theorem Scroll_speed (x y : ℚ) (g : Globals E) :
    (ViewManager.Scroll x y g).m_CameraSpeed = max (1 / 10) (g.m_CameraSpeed + (1 / 10) * y) := by
  simp [ViewManager.Scroll, mul_comm]

theorem scrolls_cons (e : ℚ × ℚ) (evs : List (ℚ × ℚ)) (g : Globals E) :
    scrolls (e :: evs) g = scrolls evs (ViewManager.Scroll e.1 e.2 g) := rfl

/-- Closed form of the speed after a scroll sequence started at speed `≥ 0.1`. -/
theorem scrolls_speed_closed (evs : List (ℚ × ℚ)) :
    ∀ g : Globals E, 1 / 10 ≤ g.m_CameraSpeed →
      (scrolls evs g).m_CameraSpeed =
        max (g.m_CameraSpeed + (1 / 10) * (evs.map Prod.snd).sum)
            (1 / 10 + (1 / 10) * maxTailSum (evs.map Prod.snd)) := by
  induction evs with
  | nil =>
    intro g hg
    simp only [scrolls, List.foldl_nil, List.map_nil, List.sum_nil, maxTailSum, mul_zero, add_zero]
    exact (max_eq_left hg).symm
  | cons e evs ih =>
    intro g hg
    rw [scrolls_cons, ih _ (by rw [Scroll_speed]; exact le_max_left _ _), Scroll_speed]
    have h1 := sum_le_maxTailSum (evs.map Prod.snd)
    simp only [List.map_cons, List.sum_cons, maxTailSum]
    rcases le_total (1 / 10) (g.m_CameraSpeed + 1 / 10 * e.2) with h | h
    · rw [max_eq_right h]
      apply le_antisymm
      · apply max_le
        · apply le_max_of_le_left; linarith
        · apply le_max_of_le_right
          have := le_max_right (e.2 + (evs.map Prod.snd).sum) (maxTailSum (evs.map Prod.snd))
          linarith
      · apply max_le
        · apply le_max_of_le_left; linarith
        · have hm : max (e.2 + (evs.map Prod.snd).sum) (maxTailSum (evs.map Prod.snd))
              ≤ max (10 * g.m_CameraSpeed - 1 + e.2 + (evs.map Prod.snd).sum)
                  (maxTailSum (evs.map Prod.snd)) :=
            max_le_max (by linarith) le_rfl
          rcases le_total (10 * g.m_CameraSpeed - 1 + e.2 + (evs.map Prod.snd).sum)
              (maxTailSum (evs.map Prod.snd)) with h2 | h2
          · rw [max_eq_right h2] at hm
            apply le_max_of_le_right; linarith
          · rw [max_eq_left h2] at hm
            apply le_max_of_le_left; linarith
    · rw [max_eq_left h]
      apply le_antisymm
      · apply max_le
        · apply le_max_of_le_right
          have := le_max_right (e.2 + (evs.map Prod.snd).sum) (maxTailSum (evs.map Prod.snd))
          linarith
        · apply le_max_of_le_right
          have := le_max_right (e.2 + (evs.map Prod.snd).sum) (maxTailSum (evs.map Prod.snd))
          linarith
      · apply max_le
        · apply le_max_of_le_right; linarith
        · rcases le_total (e.2 + (evs.map Prod.snd).sum) (maxTailSum (evs.map Prod.snd)) with h2 | h2
          · rw [max_eq_right h2]; exact le_max_right _ _
          · rw [max_eq_left h2]; apply le_max_of_le_right; linarith

theorem sum_nonpos_of_forall (ys : List ℚ) (h : ∀ y ∈ ys, y ≤ 0) : ys.sum ≤ 0 := by
  induction ys with
  | nil => simp
  | cons y ys ih =>
    have hy := h y (by simp)
    have hs := ih (fun z hz => h z (by simp [hz]))
    simp only [List.sum_cons]
    linarith

theorem Constructor_speed (C : CameraClass E M) (sm : Option ShaderManagerPtr) (pre : Globals E) :
    (ViewManager.Constructor C sm pre).2.m_CameraSpeed = 1 := rfl

/-- The speed after a scroll sequence delivered to a freshly constructed controller. -/
theorem scrolls_after_Constructor (C : CameraClass E M) (sm : Option ShaderManagerPtr)
    (pre : Globals E) (evs : List (ℚ × ℚ)) :
    (scrolls evs (ViewManager.Constructor C sm pre).2).m_CameraSpeed =
      max (1 + (1 / 10) * (evs.map Prod.snd).sum)
          (1 / 10 + (1 / 10) * maxTailSum (evs.map Prod.snd)) := by
  have h := scrolls_speed_closed evs (ViewManager.Constructor C sm pre).2
    (by rw [Constructor_speed]; norm_num)
  rw [Constructor_speed] at h
  exact h

/-- C1, as the claim states it, fails: the offsets -200, +100 sum to -100, yet
the speed after the two events is 10.1 and not max(0.1, 1.0 + 0.1 * (-100)) = 0.1,
because the floor is applied after the first event already. -/
theorem scroll_sum_formula_fails :
    ((([((0 : ℚ), (-200 : ℚ)), (0, 100)] : List (ℚ × ℚ)).map Prod.snd).sum = -100) ∧
    (scrolls [(0, -200), (0, 100)]
        (ViewManager.Constructor Recorder none (Globals.initial _)).2).m_CameraSpeed = 101 / 10 ∧
    max (1 / 10 : ℚ) (1 + (1 / 10) * (-100)) = 1 / 10 ∧
    (scrolls [(0, -200), (0, 100)]
        (ViewManager.Constructor Recorder none (Globals.initial _)).2).m_CameraSpeed
      ≠ max (1 / 10) (1 + (1 / 10) *
          (([((0 : ℚ), (-200 : ℚ)), (0, 100)] : List (ℚ × ℚ)).map Prod.snd).sum) := by
  refine ⟨by norm_num, ?_, by norm_num, ?_⟩ <;>
    norm_num [scrolls, ViewManager.Scroll, ViewManager.Constructor]

theorem drop_sum_le_maxTailSum (ys : List ℚ) : ∀ k, (ys.drop k).sum ≤ maxTailSum ys := by
  induction ys with
  | nil => intro k; simp [maxTailSum]
  | cons y ys ih =>
    intro k
    cases k with
    | zero => simp [maxTailSum]
    | succ k => exact le_max_of_le_right (by simpa using ih k)

/-- C1 (amended): from the freshly constructed controller the speed after a
scroll sequence is never below max(0.1, 1.0 + 0.1 * sum).  It equals that value
if and only if, before each event, either the unclamped running value
1.0 + 0.1 * (offsets so far) is still at least 0.1 or the offsets still to come
sum to at most 0.  In particular it equals it for a sequence without positive
offsets, and such a sequence summing to -100 leaves the speed exactly 0.1. -/
theorem scroll_sequence_speed (C : CameraClass E M) (sm : Option ShaderManagerPtr)
    (pre : Globals E) (evs : List (ℚ × ℚ)) :
    max (1 / 10) (1 + (1 / 10) * (evs.map Prod.snd).sum)
      ≤ (scrolls evs (ViewManager.Constructor C sm pre).2).m_CameraSpeed ∧
    ((scrolls evs (ViewManager.Constructor C sm pre).2).m_CameraSpeed
        = max (1 / 10) (1 + (1 / 10) * (evs.map Prod.snd).sum) ↔
      ∀ k, k < evs.length →
        1 / 10 ≤ 1 + (1 / 10) * ((evs.map Prod.snd).take k).sum ∨
          ((evs.map Prod.snd).drop k).sum ≤ 0) ∧
    ((∀ e ∈ evs, e.2 ≤ 0) →
      (scrolls evs (ViewManager.Constructor C sm pre).2).m_CameraSpeed
        = max (1 / 10) (1 + (1 / 10) * (evs.map Prod.snd).sum)) ∧
    ((∀ e ∈ evs, e.2 ≤ 0) → (evs.map Prod.snd).sum = -100 →
      (scrolls evs (ViewManager.Constructor C sm pre).2).m_CameraSpeed = 1 / 10) := by
  have h0 := maxTailSum_nonneg (evs.map Prod.snd)
  have hl := le_max_left (1 / 10 : ℚ) (1 + (1 / 10) * (evs.map Prod.snd).sum)
  have hr := le_max_right (1 / 10 : ℚ) (1 + (1 / 10) * (evs.map Prod.snd).sum)
  have key : (∀ k, k < evs.length →
        1 / 10 ≤ 1 + (1 / 10) * ((evs.map Prod.snd).take k).sum ∨
          ((evs.map Prod.snd).drop k).sum ≤ 0) →
      (scrolls evs (ViewManager.Constructor C sm pre).2).m_CameraSpeed
        = max (1 / 10) (1 + (1 / 10) * (evs.map Prod.snd).sum) := by
    intro h
    rw [scrolls_after_Constructor]
    have hB : maxTailSum (evs.map Prod.snd)
        ≤ 10 * max (1 / 10) (1 + (1 / 10) * (evs.map Prod.snd).sum) - 1 := by
      apply maxTailSum_le
      · linarith
      · intro k hk
        have hsplit := List.sum_take_add_sum_drop (evs.map Prod.snd) k
        rcases h k (by simpa using hk) with hpre | hpost
        · linarith
        · linarith
    apply le_antisymm
    · apply max_le
      · exact le_max_right _ _
      · linarith
    · apply max_le
      · apply le_max_of_le_right; linarith
      · exact le_max_left _ _
  have hneg : (∀ e ∈ evs, e.2 ≤ 0) →
      (scrolls evs (ViewManager.Constructor C sm pre).2).m_CameraSpeed
        = max (1 / 10) (1 + (1 / 10) * (evs.map Prod.snd).sum) := by
    intro hall
    apply key
    intro k _
    right
    apply sum_nonpos_of_forall
    intro y hy
    have hy' := List.mem_of_mem_drop hy
    simp only [List.mem_map] at hy'
    obtain ⟨e, he, rfl⟩ := hy'
    exact hall e he
  refine ⟨?_, ⟨?_, key⟩, hneg, ?_⟩
  · rw [scrolls_after_Constructor]
    apply max_le
    · apply le_max_of_le_right; linarith
    · exact le_max_left _ _
  · intro heq k _
    rw [scrolls_after_Constructor] at heq
    have hm : 1 / 10 + (1 / 10) * maxTailSum (evs.map Prod.snd)
        ≤ max (1 / 10) (1 + (1 / 10) * (evs.map Prod.snd).sum) := by
      rw [← heq]; exact le_max_right _ _
    have hk := drop_sum_le_maxTailSum (evs.map Prod.snd) k
    have hsplit := List.sum_take_add_sum_drop (evs.map Prod.snd) k
    rcases le_total (1 / 10 : ℚ) (1 + (1 / 10) * (evs.map Prod.snd).sum) with hc | hc
    · rw [max_eq_right hc] at hm
      left; linarith
    · rw [max_eq_left hc] at hm
      right; linarith
  · intro hall hsum
    rw [hneg hall, hsum]
    norm_num

/-- C1 at concrete inputs: -40, -60 (no positive offset, sum -100) leaves 0.1;
+3, -2 (the floor never applies) leaves max(0.1, 1.0 + 0.1 * 1) = 1.1. -/
theorem scroll_sequence_speed_witness :
    (scrolls [(0, -40), (0, -60)]
        (ViewManager.Constructor Recorder none (Globals.initial _)).2).m_CameraSpeed = 1 / 10 ∧
    (scrolls [(0, 3), (0, -2)]
        (ViewManager.Constructor Recorder none (Globals.initial _)).2).m_CameraSpeed = 11 / 10 := by
  constructor
  · exact (scroll_sequence_speed Recorder none (Globals.initial _) [(0, -40), (0, -60)]).2.2.2
      (by intro e he; simp at he; rcases he with rfl | rfl <;> simp) (by norm_num)
  · have h := (scroll_sequence_speed Recorder none (Globals.initial _) [(0, 3), (0, -2)]).2.1.mpr
      (by
        intro k hk
        left
        have hk' : k = 0 ∨ k = 1 := by simp at hk; omega
        rcases hk' with rfl | rfl <;> norm_num)
    rw [h]; norm_num

/-! ## Which globals each operation leaves alone -/

/-- The keyboard poll writes only the camera and the projection flag. -/
theorem ProcessKeyboardEvents_frame (C : CameraClass E M) (vm : ViewManager)
    (pressed : Key → Bool) (g : Globals E) :
    (ViewManager.ProcessKeyboardEvents C vm pressed g).1.m_CameraSpeed = g.m_CameraSpeed ∧
    (ViewManager.ProcessKeyboardEvents C vm pressed g).1.gLastX = g.gLastX ∧
    (ViewManager.ProcessKeyboardEvents C vm pressed g).1.gLastY = g.gLastY ∧
    (ViewManager.ProcessKeyboardEvents C vm pressed g).1.gFirstMouse = g.gFirstMouse ∧
    (ViewManager.ProcessKeyboardEvents C vm pressed g).1.gDeltaTime = g.gDeltaTime ∧
    (ViewManager.ProcessKeyboardEvents C vm pressed g).1.gLastFrame = g.gLastFrame ∧
    (ViewManager.ProcessKeyboardEvents C vm pressed g).1.g_pCamera.isSome = g.g_pCamera.isSome := by
  unfold ViewManager.ProcessKeyboardEvents
  cases hcam : g.g_pCamera with
  | none => simp [hcam]
  | some cam =>
    cases h1 : pressed Key.GLFW_KEY_1 <;> cases h2 : pressed Key.GLFW_KEY_2 <;> simp [h1, h2]

/-- With no key down the keyboard poll changes nothing and calls nothing. -/
theorem ProcessKeyboardEvents_idle (C : CameraClass E M) (vm : ViewManager)
    (pressed : Key → Bool) (hidle : ∀ k, pressed k = false) (g : Globals E) :
    ViewManager.ProcessKeyboardEvents C vm pressed g = (g, []) := by
  unfold ViewManager.ProcessKeyboardEvents
  cases g with
  | mk cam lx ly fm dt lf ortho speed =>
    cases cam with
    | none => simp [hidle]
    | some cam => simp [hidle]

/-- The frame update succeeds on a live camera and writes, besides what the
keyboard poll writes, only the two timing variables. -/
theorem PrepareSceneView_frame (C : CameraClass E M) (glm : Glm M) (vm : ViewManager)
    (t : ℚ) (pressed : Key → Bool) (g : Globals E) (hcam : g.g_pCamera.isSome = true) :
    ∃ r, ViewManager.PrepareSceneView C glm vm t pressed g = some r ∧
      r.1 = (ViewManager.ProcessKeyboardEvents C vm pressed
        { g with gDeltaTime := t - g.gLastFrame, gLastFrame := t }).1 ∧
      r.2.1 = (ViewManager.ProcessKeyboardEvents C vm pressed
        { g with gDeltaTime := t - g.gLastFrame, gLastFrame := t }).2 := by
  have hf := (ProcessKeyboardEvents_frame C vm pressed
    { g with gDeltaTime := t - g.gLastFrame, gLastFrame := t }).2.2.2.2.2.2
  simp only [hcam] at hf
  obtain ⟨cam, hc⟩ := Option.isSome_iff_exists.mp hf
  unfold ViewManager.PrepareSceneView
  simp only [hc]
  cases vm.m_pShaderManager <;> simp

theorem roundHalfEven_of_near (y : ℚ) (n : ℤ) (h : |y - n| < 1 / 2) : roundHalfEven y = n := by
  rw [abs_lt] at h
  obtain ⟨h1, h2⟩ := h
  unfold roundHalfEven
  rcases le_or_lt (n : ℚ) y with hge | hlt
  · have hf : ⌊y⌋ = n := by
      rw [Int.floor_eq_iff]; constructor <;> linarith
    simp only [hf]
    rw [if_pos (by linarith)]
  · have hf : ⌊y⌋ = n - 1 := by
      rw [Int.floor_eq_iff]; push_cast; constructor <;> linarith
    simp only [hf]
    push_cast
    rw [if_neg (by linarith), if_pos (by linarith)]
    ring

theorem log_eq_of_bounds (r : ℚ) (e : ℤ) (hlo : (2 : ℚ) ^ e ≤ r) (hhi : r < (2 : ℚ) ^ (e + 1)) :
    Int.log 2 r = e := by
  have hr : 0 < r := lt_of_lt_of_le (by positivity) hlo
  apply le_antisymm
  · have := (Int.lt_zpow_iff_log_lt (R := ℚ) (b := 2) (by norm_num) hr (x := e + 1)).mp
      (by exact_mod_cast hhi)
    omega
  · exact (Int.zpow_le_iff_le_log (R := ℚ) (b := 2) (by norm_num) hr).mp (by exact_mod_cast hlo)

/-- A rounding checked from its two witnesses: the exponent `e` of the value and
the integer `n` within half a spacing of it. -/
theorem roundNearestEven_eq (p : ℕ) (emin : ℤ) (x : ℚ) (e n : ℤ)
    (hlo : (2 : ℚ) ^ e ≤ |x|) (hhi : |x| < (2 : ℚ) ^ (e + 1))
    (hn : |x / (2 : ℚ) ^ (max e emin - ((p : ℤ) - 1)) - n| < 1 / 2) :
    roundNearestEven p emin x = n * (2 : ℚ) ^ (max e emin - ((p : ℤ) - 1)) := by
  have hx : x ≠ 0 := by
    intro h
    rw [h, abs_zero] at hlo
    have : (0 : ℚ) < 2 ^ e := by positivity
    linarith
  unfold roundNearestEven
  rw [if_neg hx]
  simp only [log_eq_of_bounds |x| e hlo hhi]
  rw [roundHalfEven_of_near _ n hn]

theorem toFloat_zero : toFloat 0 = 0 := by simp [toFloat, roundNearestEven]

theorem toDouble_zero : toDouble 0 = 0 := by simp [toDouble, roundNearestEven]

/-- An integer of fewer than `p` bits is unchanged by rounding to `p` bits. -/
theorem roundNearestEven_intCast (p : ℕ) (emin : ℤ) (hemin : emin ≤ 0) (n : ℤ)
    (hn : |(n : ℚ)| < (2 : ℚ) ^ (p : ℤ)) : roundNearestEven p emin (n : ℚ) = n := by
  by_cases h0 : n = 0
  · subst h0; simp [roundNearestEven]
  have hx : (n : ℚ) ≠ 0 := by exact_mod_cast h0
  have h1 : (1 : ℚ) ≤ |(n : ℚ)| := by
    have : (1 : ℤ) ≤ |n| := Int.one_le_abs h0
    exact_mod_cast this
  have hpos : (0 : ℚ) < |(n : ℚ)| := by linarith
  have he0 : 0 ≤ Int.log 2 |(n : ℚ)| :=
    (Int.zpow_le_iff_le_log (R := ℚ) (b := 2) (by norm_num) hpos).mp (by simpa using h1)
  have he1 : Int.log 2 |(n : ℚ)| < p :=
    (Int.lt_zpow_iff_log_lt (R := ℚ) (b := 2) (by norm_num) hpos).mp (by exact_mod_cast hn)
  unfold roundNearestEven
  rw [if_neg hx]
  simp only []
  rw [max_eq_left (le_trans hemin he0)]
  obtain ⟨m, hm⟩ : ∃ m : ℕ, (m : ℤ) = (p : ℤ) - 1 - Int.log 2 |(n : ℚ)| :=
    ⟨((p : ℤ) - 1 - Int.log 2 |(n : ℚ)|).toNat, Int.toNat_of_nonneg (by omega)⟩
  have hk : Int.log 2 |(n : ℚ)| - ((p : ℤ) - 1) = -(m : ℤ) := by omega
  rw [hk, zpow_neg, zpow_natCast]
  have h2 : ((2 : ℚ) ^ m) ≠ 0 := by positivity
  have hy : (n : ℚ) / ((2 : ℚ) ^ m)⁻¹ = ((n * 2 ^ m : ℤ) : ℚ) := by
    push_cast; field_simp
  rw [hy, roundHalfEven_of_near _ (n * 2 ^ m) (by simp)]
  push_cast
  field_simp

/-- Whole numbers below 2 ^ 24 in magnitude are exactly `float` values. -/
theorem ExactFloat_intCast (n : ℤ) (hn : |(n : ℚ)| < 16777216) : ExactFloat (n : ℚ) := by
  constructor
  · exact roundNearestEven_intCast 53 (-1022) (by norm_num) n
      (lt_trans hn (by norm_num))
  · exact roundNearestEven_intCast 24 (-126) (by norm_num) n
      (lt_of_lt_of_le hn (by norm_num))

/-- The double nearest 500.1 is a double. -/
theorem double_500_1 :
    toDouble (4398926120406221 / 8796093022208 : ℚ) = (4398926120406221 / 8796093022208 : ℚ) := by
  have h := roundNearestEven_eq 53 (-1022) (4398926120406221 / 8796093022208 : ℚ)
    (8) (8797852240812442)
    (by norm_num [abs_of_pos, abs_of_neg]) (by norm_num [abs_of_pos, abs_of_neg])
    (by norm_num [abs_lt])
  rw [toDouble, h]; norm_num

/-- The double nearest 500.1 narrowed to float. -/
theorem float_500_1 :
    toFloat (4398926120406221 / 8796093022208 : ℚ) = (16387277 / 32768 : ℚ) := by
  have h := roundNearestEven_eq 24 (-126) (4398926120406221 / 8796093022208 : ℚ)
    (8) (16387277)
    (by norm_num [abs_of_pos, abs_of_neg]) (by norm_num [abs_of_pos, abs_of_neg])
    (by norm_num [abs_lt])
  rw [toFloat, h]; norm_num

/-- The double nearest 400.7 is a double. -/
theorem double_400_7 :
    toDouble (7049188947997491 / 17592186044416 : ℚ) = (7049188947997491 / 17592186044416 : ℚ) := by
  have h := roundNearestEven_eq 53 (-1022) (7049188947997491 / 17592186044416 : ℚ)
    (8) (7049188947997491)
    (by norm_num [abs_of_pos, abs_of_neg]) (by norm_num [abs_of_pos, abs_of_neg])
    (by norm_num [abs_lt])
  rw [toDouble, h]; norm_num

/-- The double nearest 400.7 narrowed to float. -/
theorem float_400_7 :
    toFloat (7049188947997491 / 17592186044416 : ℚ) = (6565069 / 16384 : ℚ) := by
  have h := roundNearestEven_eq 24 (-126) (7049188947997491 / 17592186044416 : ℚ)
    (8) (13130138)
    (by norm_num [abs_of_pos, abs_of_neg]) (by norm_num [abs_of_pos, abs_of_neg])
    (by norm_num [abs_lt])
  rw [toFloat, h]; norm_num

/-- The difference between the double nearest 500.1 and its float, in double. -/
theorem double_residual_x :
    toDouble (-(53687091 / 8796093022208) : ℚ) = (-(53687091 / 8796093022208) : ℚ) := by
  have h := roundNearestEven_eq 53 (-1022) (-(53687091 / 8796093022208) : ℚ)
    (-18) (-7205759376949248)
    (by norm_num [abs_of_pos, abs_of_neg]) (by norm_num [abs_of_pos, abs_of_neg])
    (by norm_num [abs_lt])
  rw [toDouble, h]; norm_num

/-- That difference narrowed to float. -/
theorem float_residual_x :
    toFloat (-(53687091 / 8796093022208) : ℚ) = (-(13421773 / 2199023255552) : ℚ) := by
  have h := roundNearestEven_eq 24 (-126) (-(53687091 / 8796093022208) : ℚ)
    (-18) (-13421773)
    (by norm_num [abs_of_pos, abs_of_neg]) (by norm_num [abs_of_pos, abs_of_neg])
    (by norm_num [abs_lt])
  rw [toFloat, h]; norm_num

/-- The difference between the float of the double nearest 400.7 and that double, in double. -/
theorem double_residual_y :
    toDouble (214748365 / 17592186044416 : ℚ) = (214748365 / 17592186044416 : ℚ) := by
  have h := roundNearestEven_eq 53 (-1022) (214748365 / 17592186044416 : ℚ)
    (-17) (7205759410503680)
    (by norm_num [abs_of_pos, abs_of_neg]) (by norm_num [abs_of_pos, abs_of_neg])
    (by norm_num [abs_lt])
  rw [toDouble, h]; norm_num

/-- That difference narrowed to float. -/
theorem float_residual_y :
    toFloat (214748365 / 17592186044416 : ℚ) = (13421773 / 1099511627776 : ℚ) := by
  have h := roundNearestEven_eq 24 (-126) (214748365 / 17592186044416 : ℚ)
    (-17) (13421773)
    (by norm_num [abs_of_pos, abs_of_neg]) (by norm_num [abs_of_pos, abs_of_neg])
    (by norm_num [abs_lt])
  rw [toFloat, h]; norm_num

/-- The product 333 * 1.1f is a double. -/
theorem double_333_scaled :
    toDouble (3072747177 / 8388608 : ℚ) = (3072747177 / 8388608 : ℚ) := by
  have h := roundNearestEven_eq 53 (-1022) (3072747177 / 8388608 : ℚ)
    (8) (6444017887739904)
    (by norm_num [abs_of_pos, abs_of_neg]) (by norm_num [abs_of_pos, abs_of_neg])
    (by norm_num [abs_lt])
  rw [toDouble, h]; norm_num

/-- The product 333 * 1.1f narrowed to float. -/
theorem float_333_scaled :
    toFloat (3072747177 / 8388608 : ℚ) = (12002919 / 32768 : ℚ) := by
  have h := roundNearestEven_eq 24 (-126) (3072747177 / 8388608 : ℚ)
    (8) (12002919)
    (by norm_num [abs_of_pos, abs_of_neg]) (by norm_num [abs_of_pos, abs_of_neg])
    (by norm_num [abs_lt])
  rw [toFloat, h]; norm_num

/-- The product 777 * 1.1f is a double. -/
theorem double_777_scaled :
    toDouble (7169743413 / 8388608 : ℚ) = (7169743413 / 8388608 : ℚ) := by
  have h := roundNearestEven_eq 53 (-1022) (7169743413 / 8388608 : ℚ)
    (9) (7518020869029888)
    (by norm_num [abs_of_pos, abs_of_neg]) (by norm_num [abs_of_pos, abs_of_neg])
    (by norm_num [abs_lt])
  rw [toDouble, h]; norm_num

/-- The product 777 * 1.1f narrowed to float. -/
theorem float_777_scaled :
    toFloat (7169743413 / 8388608 : ℚ) = (14003405 / 16384 : ℚ) := by
  have h := roundNearestEven_eq 24 (-126) (7169743413 / 8388608 : ℚ)
    (9) (14003405)
    (by norm_num [abs_of_pos, abs_of_neg]) (by norm_num [abs_of_pos, abs_of_neg])
    (by norm_num [abs_lt])
  rw [toFloat, h]; norm_num

/-- The difference between 333 * 1.1f and its float, in double. -/
theorem double_333_residual :
    toDouble (-(87 / 8388608) : ℚ) = (-(87 / 8388608) : ℚ) := by
  have h := roundNearestEven_eq 53 (-1022) (-(87 / 8388608) : ℚ)
    (-17) (-6122080743456768)
    (by norm_num [abs_of_pos, abs_of_neg]) (by norm_num [abs_of_pos, abs_of_neg])
    (by norm_num [abs_lt])
  rw [toDouble, h]; norm_num

/-- That difference narrowed to float. -/
theorem float_333_residual :
    toFloat (-(87 / 8388608) : ℚ) = (-(87 / 8388608) : ℚ) := by
  have h := roundNearestEven_eq 24 (-126) (-(87 / 8388608) : ℚ)
    (-17) (-11403264)
    (by norm_num [abs_of_pos, abs_of_neg]) (by norm_num [abs_of_pos, abs_of_neg])
    (by norm_num [abs_lt])
  rw [toFloat, h]; norm_num

/-- The difference between the float of 777 * 1.1f and that product, in double. -/
theorem double_777_residual :
    toDouble (-(53 / 8388608) : ℚ) = (-(53 / 8388608) : ℚ) := by
  have h := roundNearestEven_eq 53 (-1022) (-(53 / 8388608) : ℚ)
    (-18) (-7459086882832384)
    (by norm_num [abs_of_pos, abs_of_neg]) (by norm_num [abs_of_pos, abs_of_neg])
    (by norm_num [abs_lt])
  rw [toDouble, h]; norm_num

/-- That difference narrowed to float. -/
theorem float_777_residual :
    toFloat (-(53 / 8388608) : ℚ) = (-(53 / 8388608) : ℚ) := by
  have h := roundNearestEven_eq 24 (-126) (-(53 / 8388608) : ℚ)
    (-18) (-13893632)
    (by norm_num [abs_of_pos, abs_of_neg]) (by norm_num [abs_of_pos, abs_of_neg])
    (by norm_num [abs_lt])
  rw [toFloat, h]; norm_num

/-! ## Mouse movement -/

/-- Storing an exact `float` value keeps it. -/
theorem toFloat_toDouble_of_exact (v : ℚ) (h : ExactFloat v) : toFloat (toDouble v) = v := by
  rw [h.1, h.2]

/-- What one mouse callback does on a live camera.  With X and Y the products of
the sample with the speed, in `double`: the stored position becomes
(float(X), float(Y)), the flag is cleared, and the camera receives
(float(X - lastX), float(lastY - Y)), where (lastX, lastY) is the position stored
before the call, or (float(X), float(Y)) itself when the flag was set. -/
theorem Mouse_Position_Callback_eq (C : CameraClass E M) (x y : ℚ) (g : Globals E)
    (cam : Camera E) (hc : g.g_pCamera = some cam) :
    ViewManager.Mouse_Position_Callback C x y g = some
      { g with
        g_pCamera := some (C.ProcessMouseMovement
          (toFloat (toDouble (toDouble (x * g.m_CameraSpeed) -
            (if g.gFirstMouse then toFloat (toDouble (x * g.m_CameraSpeed)) else g.gLastX))))
          (toFloat (toDouble
            ((if g.gFirstMouse then toFloat (toDouble (y * g.m_CameraSpeed)) else g.gLastY) -
              toDouble (y * g.m_CameraSpeed)))) cam)
        gLastX := toFloat (toDouble (x * g.m_CameraSpeed))
        gLastY := toFloat (toDouble (y * g.m_CameraSpeed))
        gFirstMouse := false } := by
  unfold ViewManager.Mouse_Position_Callback
  by_cases hf : g.gFirstMouse = true <;> simp [hf, hc]

/-- An event other than a mouse callback succeeds on a live camera and leaves the
mouse-tracking variables alone; unless it is a scroll it leaves the speed alone. -/
theorem step_tracking (C : CameraClass E M) (glm : Glm M) (vm : ViewManager) (e : Event)
    (g : Globals E) (hm : e.isMouse = false) (hcam : g.g_pCamera.isSome = true) :
    ∃ g', step C glm vm e g = some g' ∧ g'.g_pCamera.isSome = true ∧
      g'.gLastX = g.gLastX ∧ g'.gLastY = g.gLastY ∧ g'.gFirstMouse = g.gFirstMouse ∧
      (e.isScroll = false → g'.m_CameraSpeed = g.m_CameraSpeed) := by
  cases e with
  | Scroll xo yo =>
    exact ⟨_, rfl, by simpa [ViewManager.Scroll] using hcam, rfl, rfl, rfl,
      by simp [Event.isScroll]⟩
  | Mouse_Position_Callback x y => simp [Event.isMouse] at hm
  | ProcessKeyboardEvents pressed =>
    have hf := ProcessKeyboardEvents_frame C vm pressed g
    exact ⟨_, rfl, by rw [hf.2.2.2.2.2.2]; exact hcam, hf.2.1, hf.2.2.1, hf.2.2.2.1,
      fun _ => hf.1⟩
  | PrepareSceneView t pressed =>
    obtain ⟨r, h1, h2, _⟩ := PrepareSceneView_frame C glm vm t pressed g hcam
    have hf := ProcessKeyboardEvents_frame C vm pressed
      { g with gDeltaTime := t - g.gLastFrame, gLastFrame := t }
    refine ⟨r.1, by simp [step, h1], ?_, ?_, ?_, ?_, fun _ => ?_⟩
    · rw [h2, hf.2.2.2.2.2.2]; exact hcam
    · rw [h2, hf.2.1]
    · rw [h2, hf.2.2.1]
    · rw [h2, hf.2.2.2.1]
    · rw [h2, hf.1]

theorem run_tracking (C : CameraClass E M) (glm : Glm M) (vm : ViewManager) (evs : List Event) :
    ∀ g : Globals E, (∀ e ∈ evs, e.isMouse = false) → g.g_pCamera.isSome = true →
      ∃ g', run C glm vm evs g = some g' ∧ g'.g_pCamera.isSome = true ∧
        g'.gLastX = g.gLastX ∧ g'.gLastY = g.gLastY ∧ g'.gFirstMouse = g.gFirstMouse ∧
        ((∀ e ∈ evs, e.isScroll = false) → g'.m_CameraSpeed = g.m_CameraSpeed) := by
  induction evs with
  | nil => intro g _ hc; exact ⟨g, rfl, hc, rfl, rfl, rfl, fun _ => rfl⟩
  | cons e es ih =>
    intro g hm hc
    obtain ⟨g1, h1, hc1, hx1, hy1, hf1, hs1⟩ :=
      step_tracking C glm vm e g (hm e (by simp)) hc
    obtain ⟨g2, h2, hc2, hx2, hy2, hf2, hs2⟩ := ih g1 (fun e' he' => hm e' (by simp [he'])) hc1
    refine ⟨g2, by simp [run, h1, h2], hc2, hx2.trans hx1, hy2.trans hy1, hf2.trans hf1, ?_⟩
    intro hns
    rw [hs2 (fun e' he' => hns e' (by simp [he'])), hs1 (hns e (by simp))]


theorem toDouble_intCast (n : ℤ) (hn : |(n : ℚ)| < 16777216) : toDouble (n : ℚ) = n :=
  (ExactFloat_intCast n hn).1

theorem toFloat_intCast (n : ℤ) (hn : |(n : ℚ)| < 16777216) : toFloat (n : ℚ) = n :=
  (ExactFloat_intCast n hn).2

/-- C3, as the claim states it, fails: in a freshly started program the first
mouse event at (500.1, 400.7), given as the doubles nearest to these numbers, is
stored as the floats 500.100006103515625 and 400.70001220703125, not as the
sample, and is forwarded with the offset (-6.1035e-06, 1.2207e-05), the
differences between sample and stored float, not with (0, 0). -/
theorem first_mouse_offset_residual :
    ∃ g', ViewManager.Mouse_Position_Callback Recorder
        (4398926120406221 / 8796093022208) (7049188947997491 / 17592186044416)
        (ViewManager.Constructor Recorder none (Globals.initial _)).2 = some g' ∧
      g'.gLastX = 16387277 / 32768 ∧ g'.gLastY = 6565069 / 16384 ∧
      g'.gLastX ≠ 4398926120406221 / 8796093022208 ∧
      g'.gLastY ≠ 7049188947997491 / 17592186044416 ∧
      received g' = some [CameraCall.ProcessMouseMovement
        (-(13421773 / 2199023255552)) (13421773 / 1099511627776)] ∧
      received g' ≠ some [CameraCall.ProcessMouseMovement 0 0] := by
  have h := Mouse_Position_Callback_eq Recorder
    (4398926120406221 / 8796093022208) (7049188947997491 / 17592186044416)
    (ViewManager.Constructor Recorder none (Globals.initial _)).2 _ rfl
  simp only [ViewManager.Constructor, Globals.initial, if_true, mul_one,
    double_500_1, float_500_1, double_400_7, float_400_7] at h
  rw [show (4398926120406221 / 8796093022208 - 16387277 / 32768 : ℚ)
        = (-(53687091 / 8796093022208) : ℚ) from by norm_num,
      show (6565069 / 16384 - 7049188947997491 / 17592186044416 : ℚ)
        = (214748365 / 17592186044416 : ℚ) from by norm_num,
      double_residual_x, float_residual_x, double_residual_y, float_residual_y] at h
  refine ⟨_, h, rfl, rfl, ?_, ?_, ?_, ?_⟩
  · norm_num
  · norm_num
  · simp [received, Recorder]
  · simp [received, Recorder]

/-- The mouse callback on a live camera, field by field. -/
theorem Mouse_Position_Callback_spec (C : CameraClass E M) (x y : ℚ) (g : Globals E)
    (cam : Camera E) (hc : g.g_pCamera = some cam) :
    ∃ g', ViewManager.Mouse_Position_Callback C x y g = some g' ∧
      g'.g_pCamera = some (C.ProcessMouseMovement
        (toFloat (toDouble (toDouble (x * g.m_CameraSpeed) -
          (if g.gFirstMouse then toFloat (toDouble (x * g.m_CameraSpeed)) else g.gLastX))))
        (toFloat (toDouble
          ((if g.gFirstMouse then toFloat (toDouble (y * g.m_CameraSpeed)) else g.gLastY) -
            toDouble (y * g.m_CameraSpeed)))) cam) ∧
      g'.gLastX = toFloat (toDouble (x * g.m_CameraSpeed)) ∧
      g'.gLastY = toFloat (toDouble (y * g.m_CameraSpeed)) ∧
      g'.gFirstMouse = false ∧ g'.m_CameraSpeed = g.m_CameraSpeed :=
  ⟨_, Mouse_Position_Callback_eq C x y g cam hc, rfl, rfl, rfl, rfl, rfl⟩

/-- C8, as the claim states it, fails: a controller receives (500, 400) and is
destroyed; a second controller is constructed and its first mouse event
(510, 390) is forwarded with offset (10, 10), not (0, 0), because the
first-sample flag is still cleared and the stored position is still (500, 400). -/
theorem second_controller_first_mouse_offset :
    ∃ g1 g2,
      ViewManager.Mouse_Position_Callback Recorder 500 400
        (ViewManager.Constructor Recorder none (Globals.initial _)).2 = some g1 ∧
      ViewManager.Mouse_Position_Callback Recorder 510 390
        (ViewManager.Constructor Recorder none
          (ViewManager.Destructor
            (ViewManager.Constructor Recorder none (Globals.initial _)).1 g1).2).2 = some g2 ∧
      received g2 = some [CameraCall.ProcessMouseMovement 10 10] ∧
      received g2 ≠ some [CameraCall.ProcessMouseMovement 0 0] := by
  have d500 : toDouble 500 = 500 := by simpa using toDouble_intCast 500 (by norm_num)
  have f500 : toFloat 500 = 500 := by simpa using toFloat_intCast 500 (by norm_num)
  have d400 : toDouble 400 = 400 := by simpa using toDouble_intCast 400 (by norm_num)
  have f400 : toFloat 400 = 400 := by simpa using toFloat_intCast 400 (by norm_num)
  have d510 : toDouble 510 = 510 := by simpa using toDouble_intCast 510 (by norm_num)
  have d390 : toDouble 390 = 390 := by simpa using toDouble_intCast 390 (by norm_num)
  have d10 : toDouble 10 = 10 := by simpa using toDouble_intCast 10 (by norm_num)
  have f10 : toFloat 10 = 10 := by simpa using toFloat_intCast 10 (by norm_num)
  refine ⟨_, _, Mouse_Position_Callback_eq Recorder 500 400 _ _ rfl,
    Mouse_Position_Callback_eq Recorder 510 390 _ _ rfl, ?_, ?_⟩ <;>
    norm_num [received, Recorder, ViewManager.Constructor, ViewManager.Destructor,
      Globals.initial, d500, f500, d400, f400, d510, d390, d10, f10]

/-- C8 (amended): the constructor leaves the first-sample flag and the stored
position as it finds them, and so does every event other than a mouse event.
Let (x, y) be the first mouse event after a construction, s the camera speed when
it arrives (1.0 unless a scroll came first), and X, Y the products x * s, y * s
in double.  The callback succeeds, stores (float(X), float(Y)) and clears the
flag.  When the flag was set as the constructor ran (as in a freshly started
program) it forwards (float(X - float(X)), float(float(Y) - Y)), which is (0, 0),
with (x * s, y * s) stored, whenever x * s and y * s are exactly float values.
When an earlier mouse event had cleared the flag it forwards
(float(X - lastX), float(lastY - Y)) against the position stored before the
construction. -/
theorem first_mouse_after_construction (C : CameraClass E M) (glm : Glm M)
    (sm : Option ShaderManagerPtr) (window : Option GLFWwindow) (pre : Globals E)
    (between : List Event) (x y : ℚ) (hbetween : ∀ e ∈ between, e.isMouse = false) :
    ∃ g cam g',
      run C glm { (ViewManager.Constructor C sm pre).1 with m_pWindow := window } between
        (ViewManager.Constructor C sm pre).2 = some g ∧
      g.g_pCamera = some cam ∧
      g.gFirstMouse = pre.gFirstMouse ∧ g.gLastX = pre.gLastX ∧ g.gLastY = pre.gLastY ∧
      ((∀ e ∈ between, e.isScroll = false) → g.m_CameraSpeed = 1) ∧
      ViewManager.Mouse_Position_Callback C x y g = some g' ∧
      g'.gLastX = toFloat (toDouble (x * g.m_CameraSpeed)) ∧
      g'.gLastY = toFloat (toDouble (y * g.m_CameraSpeed)) ∧
      g'.gFirstMouse = false ∧
      (pre.gFirstMouse = true →
        g'.g_pCamera = some (C.ProcessMouseMovement
          (toFloat (toDouble (toDouble (x * g.m_CameraSpeed) -
            toFloat (toDouble (x * g.m_CameraSpeed)))))
          (toFloat (toDouble (toFloat (toDouble (y * g.m_CameraSpeed)) -
            toDouble (y * g.m_CameraSpeed)))) cam) ∧
        (ExactFloat (x * g.m_CameraSpeed) → ExactFloat (y * g.m_CameraSpeed) →
          g'.gLastX = x * g.m_CameraSpeed ∧ g'.gLastY = y * g.m_CameraSpeed ∧
          g'.g_pCamera = some (C.ProcessMouseMovement 0 0 cam))) ∧
      (pre.gFirstMouse = false →
        g'.g_pCamera = some (C.ProcessMouseMovement
          (toFloat (toDouble (toDouble (x * g.m_CameraSpeed) - pre.gLastX)))
          (toFloat (toDouble (pre.gLastY - toDouble (y * g.m_CameraSpeed)))) cam)) := by
  obtain ⟨g, hrun, hc, hx, hy, hf, hs⟩ := run_tracking C glm
    { (ViewManager.Constructor C sm pre).1 with m_pWindow := window } between
    (ViewManager.Constructor C sm pre).2 hbetween rfl
  obtain ⟨cam, hcam⟩ := Option.isSome_iff_exists.mp hc
  obtain ⟨g', h1, hcam', hx', hy', hf', _⟩ := Mouse_Position_Callback_spec C x y g cam hcam
  have hflag : g.gFirstMouse = pre.gFirstMouse := hf
  have hlx : g.gLastX = pre.gLastX := hx
  have hly : g.gLastY = pre.gLastY := hy
  refine ⟨g, cam, g', hrun, hcam, hflag, hlx, hly, fun h => (hs h).trans rfl, h1, hx', hy', hf',
    ?_, ?_⟩
  · intro hpre
    rw [hflag, hpre] at hcam'
    simp only [if_true] at hcam'
    refine ⟨hcam', fun ex ey => ?_⟩
    rw [hx', hy', hcam', ex.1, ex.2, ey.1, ey.2]
    simp only [sub_self, toDouble_zero, toFloat_zero, and_self]
  · intro hpre
    rw [hflag, hpre, hlx, hly] at hcam'
    simpa using hcam'

/-- C8 (amended) in a freshly started program: after a scroll of +10 (speed 2.0)
the first mouse event (250, 200) stores the scaled sample (500, 400) and is
forwarded as (0, 0). -/
theorem first_mouse_after_construction_witness :
    ∃ g g', run Recorder SymGlm ⟨none, some 7⟩ [Event.Scroll 0 10]
        (ViewManager.Constructor Recorder none (Globals.initial _)).2 = some g ∧
      g.m_CameraSpeed = 2 ∧
      ViewManager.Mouse_Position_Callback Recorder 250 200 g = some g' ∧
      g'.gLastX = 500 ∧ g'.gLastY = 400 ∧ g'.gFirstMouse = false ∧
      received g' = some [CameraCall.ProcessMouseMovement 0 0] := by
  obtain ⟨g, cam, g', hrun, hc, _, _, _, _, h1, _, _, hf, hset, _⟩ :=
    first_mouse_after_construction Recorder SymGlm none (some 7) (Globals.initial _)
      [Event.Scroll 0 10] 250 200 (by simp [Event.isMouse])
  have hg := hrun
  simp only [run, step, Option.bind_some, Option.some.injEq] at hg
  have hs : g.m_CameraSpeed = 2 := by
    rw [← hg]; norm_num [ViewManager.Scroll, ViewManager.Constructor]
  have e500 : ExactFloat (250 * g.m_CameraSpeed) := by
    rw [hs]; norm_num; simpa using ExactFloat_intCast 500 (by norm_num)
  have e400 : ExactFloat (200 * g.m_CameraSpeed) := by
    rw [hs]; norm_num; simpa using ExactFloat_intCast 400 (by norm_num)
  obtain ⟨hx, hy, hcam⟩ := (hset rfl).2 e500 e400
  refine ⟨g, g', hrun, hs, h1, by rw [hx, hs]; norm_num, by rw [hy, hs]; norm_num, hf, ?_⟩
  rw [← hg] at hc
  simp only [ViewManager.Scroll, ViewManager.Constructor, Option.some.injEq] at hc
  rw [received, hcam, ← hc]
  simp [Recorder]

/-- Tracking state after a run without scroll events, at speed 1, of samples that
are exactly float values. -/
theorem run_mouse_tracking (C : CameraClass E M) (glm : Glm M) (vm : ViewManager)
    (evs : List Event) :
    ∀ (g : Globals E) (last : Option (ℚ × ℚ)), g.g_pCamera.isSome = true →
      g.m_CameraSpeed = 1 → Tracks g last → (∀ e ∈ evs, e.isScroll = false) →
      (∀ e ∈ evs, ∀ q, e.mousePos = some q → ExactFloat q.1 ∧ ExactFloat q.2) →
      ∃ g', run C glm vm evs g = some g' ∧ g'.g_pCamera.isSome = true ∧
        g'.m_CameraSpeed = 1 ∧
        Tracks g' (match lastMouse evs with
          | some q => some q
          | none => last) := by
  induction evs with
  | nil => intro g last hc hs ht _ _; exact ⟨g, rfl, hc, hs, ht⟩
  | cons e es ih =>
    intro g last hc hs ht hns hex
    have hes : ∀ e' ∈ es, e'.isScroll = false := fun e' he' => hns e' (by simp [he'])
    have hexs : ∀ e' ∈ es, ∀ q, e'.mousePos = some q → ExactFloat q.1 ∧ ExactFloat q.2 :=
      fun e' he' => hex e' (by simp [he'])
    cases hm : e.isMouse with
    | false =>
      obtain ⟨g1, h1, hc1, hx1, hy1, hf1, hs1⟩ := step_tracking C glm vm e g hm hc
      have ht1 : Tracks g1 last := by
        refine ⟨fun h => ?_, fun q h => ?_⟩
        · rw [hf1]; exact ht.1 h
        · rw [hf1, hx1, hy1]; exact ht.2 q h
      obtain ⟨g', h2, hc2, hs2, ht2⟩ :=
        ih g1 last hc1 (by rw [hs1 (hns e (by simp)), hs]) ht1 hes hexs
      refine ⟨g', by simp [run, h1, h2], hc2, hs2, ?_⟩
      have hpos : e.mousePos = none := by
        cases e with
        | Mouse_Position_Callback x y => simp [Event.isMouse] at hm
        | Scroll _ _ => rfl
        | ProcessKeyboardEvents _ => rfl
        | PrepareSceneView _ _ => rfl
      simp only [lastMouse, hpos]
      cases hl : lastMouse es with
      | none => simpa [hl] using ht2
      | some q => simpa [hl] using ht2
    | true =>
      cases e with
      | Mouse_Position_Callback x y =>
        obtain ⟨cam, hcam⟩ := Option.isSome_iff_exists.mp hc
        obtain ⟨ex, ey⟩ := hex (Event.Mouse_Position_Callback x y) (by simp) (x, y) rfl
        obtain ⟨g1, h1, hc1, hx1, hy1, hf1, hs1⟩ :=
          Mouse_Position_Callback_spec C x y g cam hcam
        rw [hs, mul_one, toFloat_toDouble_of_exact x ex] at hx1
        rw [hs, mul_one, toFloat_toDouble_of_exact y ey] at hy1
        obtain ⟨g', h2, hc2, hs2, ht2⟩ := ih g1 (some (x, y)) (by simp [hc1]) (hs1.trans hs)
          (by
            refine ⟨fun h => by simp at h, fun q h => ?_⟩
            simp only [Option.some.injEq] at h
            subst h
            exact ⟨hf1, hx1, hy1⟩) hes hexs
        refine ⟨g', by simp [run, step, h1, h2], hc2, hs2, ?_⟩
        simp only [lastMouse, Event.mousePos]
        cases hl : lastMouse es with
        | none => simpa [hl] using ht2
        | some q => simpa [hl] using ht2
      | Scroll _ _ => simp [Event.isMouse] at hm
      | ProcessKeyboardEvents _ => simp [Event.isMouse] at hm
      | PrepareSceneView _ _ => simp [Event.isMouse] at hm

/-- C3 (amended): in a freshly started program (globals at their initialisers)
with one constructed controller, let `before` be the events delivered so far,
none of them a scroll, and `p` the next mouse event, every mouse sample having
coordinates that are exactly float values.  All calls succeed, the callback for
`p` stores `p` as the last position, and it forwards (0, 0) to the camera when
`p` is the first mouse event, and (float(p.x - q.x), float(q.y - p.y)) when `q`
is the mouse event before it, which is (p.x - q.x, q.y - p.y) when these
differences are exactly float values too. -/
theorem mouse_sequence_offsets (C : CameraClass E M) (glm : Glm M)
    (sm : Option ShaderManagerPtr) (window : Option GLFWwindow)
    (before : List Event) (p : ℚ × ℚ) (hscroll : ∀ e ∈ before, e.isScroll = false)
    (hexact : ∀ e ∈ before, ∀ q, e.mousePos = some q → ExactFloat q.1 ∧ ExactFloat q.2)
    (hp : ExactFloat p.1 ∧ ExactFloat p.2) :
    ∃ g g' cam,
      run C glm { (ViewManager.Constructor C sm (Globals.initial E)).1 with m_pWindow := window }
        before (ViewManager.Constructor C sm (Globals.initial E)).2 = some g ∧
      g.g_pCamera = some cam ∧
      ViewManager.Mouse_Position_Callback C p.1 p.2 g = some g' ∧
      g'.gLastX = p.1 ∧ g'.gLastY = p.2 ∧
      (lastMouse before = none → g'.g_pCamera = some (C.ProcessMouseMovement 0 0 cam)) ∧
      (∀ q, lastMouse before = some q →
        g'.g_pCamera = some (C.ProcessMouseMovement
          (toFloat (toDouble (p.1 - q.1))) (toFloat (toDouble (q.2 - p.2))) cam) ∧
        (ExactFloat (p.1 - q.1) → ExactFloat (q.2 - p.2) →
          g'.g_pCamera = some (C.ProcessMouseMovement (p.1 - q.1) (q.2 - p.2) cam))) := by
  obtain ⟨g, hrun, hc, hs, ht⟩ := run_mouse_tracking C glm
    { (ViewManager.Constructor C sm (Globals.initial E)).1 with m_pWindow := window } before
    (ViewManager.Constructor C sm (Globals.initial E)).2 none rfl rfl
    ⟨fun _ => rfl, fun q h => by simp at h⟩ hscroll hexact
  obtain ⟨cam, hcam⟩ := Option.isSome_iff_exists.mp hc
  obtain ⟨g', h1, hcam', hx', hy', _, _⟩ := Mouse_Position_Callback_spec C p.1 p.2 g cam hcam
  rw [hs] at hcam'
  simp only [mul_one] at hcam'
  rw [hp.1.1, hp.2.1] at hcam'
  rw [hs, mul_one, toFloat_toDouble_of_exact p.1 hp.1] at hx'
  rw [hs, mul_one, toFloat_toDouble_of_exact p.2 hp.2] at hy'
  refine ⟨g, g', cam, hrun, hcam, h1, hx', hy', ?_, ?_⟩
  · intro hb
    rw [hb] at ht
    have hf : g.gFirstMouse = true := ht.1 rfl
    rw [hcam', hf]
    simp only [if_true, hp.1.2, hp.2.2, sub_self, toDouble_zero, toFloat_zero]
  · intro q hq
    rw [hq] at ht
    obtain ⟨hf, hx, hy⟩ := ht.2 q rfl
    have hfwd : g'.g_pCamera = some (C.ProcessMouseMovement
        (toFloat (toDouble (p.1 - q.1))) (toFloat (toDouble (q.2 - p.2))) cam) := by
      rw [hcam', hf, hx, hy]
      simp
    refine ⟨hfwd, fun ex ey => ?_⟩
    rw [hfwd, toFloat_toDouble_of_exact _ ex, toFloat_toDouble_of_exact _ ey]

/-- C3 (amended) on the recording camera: (500, 400) then (510, 390) stores
(500, 400) with offset (0, 0), then stores (510, 390) with offset (10, 10). -/
theorem mouse_sequence_offsets_witness :
    (∃ g, ViewManager.Mouse_Position_Callback Recorder 500 400
        (ViewManager.Constructor Recorder none (Globals.initial _)).2 = some g ∧
      g.gLastX = 500 ∧ g.gLastY = 400 ∧
      received g = some [CameraCall.ProcessMouseMovement 0 0]) ∧
    (∃ g1 g, run Recorder SymGlm ⟨none, some 7⟩ [Event.Mouse_Position_Callback 500 400]
        (ViewManager.Constructor Recorder none (Globals.initial _)).2 = some g1 ∧
      ViewManager.Mouse_Position_Callback Recorder 510 390 g1 = some g ∧
      g.gLastX = 510 ∧ g.gLastY = 390 ∧
      received g = some [CameraCall.ProcessMouseMovement 0 0,
        CameraCall.ProcessMouseMovement 10 10]) := by
  have e500 : ExactFloat 500 := by simpa using ExactFloat_intCast 500 (by norm_num)
  have e400 : ExactFloat 400 := by simpa using ExactFloat_intCast 400 (by norm_num)
  have e510 : ExactFloat 510 := by simpa using ExactFloat_intCast 510 (by norm_num)
  have e390 : ExactFloat 390 := by simpa using ExactFloat_intCast 390 (by norm_num)
  have e10 : ExactFloat 10 := by simpa using ExactFloat_intCast 10 (by norm_num)
  have hfirst := mouse_sequence_offsets Recorder SymGlm none (some 7) [] (500, 400)
    (by simp) (by simp) ⟨e500, e400⟩
  obtain ⟨g0, g1, cam0, h0, hc0, h1, hx1, hy1, hzero, _⟩ := hfirst
  simp only [run, Option.some.injEq] at h0
  subst h0
  simp only [ViewManager.Constructor, Option.some.injEq] at hc0
  have hlog1 : received g1 = some [CameraCall.ProcessMouseMovement 0 0] := by
    rw [received, hzero rfl, ← hc0]
    simp [Recorder]
  refine ⟨⟨g1, h1, hx1, hy1, hlog1⟩, ?_⟩
  obtain ⟨g, g', cam, hrun, hc, h2, hx, hy, _, hnext⟩ :=
    mouse_sequence_offsets Recorder SymGlm none (some 7)
      [Event.Mouse_Position_Callback 500 400] (510, 390) (by simp [Event.isScroll])
      (by
        intro e he q hq
        simp only [List.mem_singleton] at he
        subst he
        simp only [Event.mousePos, Option.some.injEq] at hq
        subst hq
        exact ⟨e500, e400⟩)
      ⟨e510, e390⟩
  refine ⟨g, g', hrun, h2, hx, hy, ?_⟩
  have hg : g = g1 := by
    have hr := hrun
    simp only [run, step, Option.bind_some] at hr
    rw [h1] at hr
    simpa using hr.symm
  rw [received, (hnext (500, 400) rfl).2 (by norm_num; exact e10) (by norm_num; exact e10)]
  rw [hg] at hc
  rw [received, hc] at hlog1
  simp only [Option.map_some', Option.some.injEq] at hlog1
  simp only [Option.map_some', Recorder, hlog1]
  norm_num
/-- The float nearest 0.1, the constant 0.1f. -/
theorem float_tenth :
    toFloat (1 / 10 : ℚ) = (13421773 / 134217728 : ℚ) := by
  have h := roundNearestEven_eq 24 (-126) (1 / 10 : ℚ)
    (-4) (13421773)
    (by norm_num [abs_of_pos, abs_of_neg]) (by norm_num [abs_of_pos, abs_of_neg])
    (by norm_num [abs_lt])
  rw [toFloat, h]; norm_num

/-- The float sum 1.0f + 0.1f, the speed after one wheel click: 1.1f. -/
theorem float_one_click :
    toFloat (147639501 / 134217728 : ℚ) = (9227469 / 8388608 : ℚ) := by
  have h := roundNearestEven_eq 24 (-126) (147639501 / 134217728 : ℚ)
    (0) (9227469)
    (by norm_num [abs_of_pos, abs_of_neg]) (by norm_num [abs_of_pos, abs_of_neg])
    (by norm_num [abs_lt])
  rw [toFloat, h]; norm_num

/-- The constant 0.1f is a float. -/
theorem float_tenth_exact :
    toFloat (13421773 / 134217728 : ℚ) = (13421773 / 134217728 : ℚ) := by
  have h := roundNearestEven_eq 24 (-126) (13421773 / 134217728 : ℚ)
    (-4) (13421773)
    (by norm_num [abs_of_pos, abs_of_neg]) (by norm_num [abs_of_pos, abs_of_neg])
    (by norm_num [abs_lt])
  rw [toFloat, h]; norm_num

/-- C10, as the claim states it, fails: at camera speed 1.1f (the float
9227469/8388608 that the code holds after one wheel click from 1.0) two mouse
events at the same raw position (333, 777), with no scroll between them, do not
give offset (0, 0).  The scaled sample (366.30000794, 854.70001853) is stored
narrowed to float, (366.30001831, 854.69998169), and each event forwards the
difference (-87/8388608, -53/8388608), about (-1.04e-05, -6.3e-06), where the
claim's formula (s1 * x1 - s0 * x0, s0 * y0 - s1 * y1) gives (0, 0). -/
theorem same_position_offset_not_zero :
    toFloat (1 + toFloat (1 * toFloat (1 / 10))) = 9227469 / 8388608 ∧
    ((9227469 / 8388608 : ℚ) * 333 - 9227469 / 8388608 * 333 = 0 ∧
      (9227469 / 8388608 : ℚ) * 777 - 9227469 / 8388608 * 777 = 0) ∧
    ∃ g1 g2,
      ViewManager.Mouse_Position_Callback Recorder 333 777
        { (ViewManager.Constructor Recorder none (Globals.initial _)).2 with
          m_CameraSpeed := 9227469 / 8388608 } = some g1 ∧
      g1.m_CameraSpeed = 9227469 / 8388608 ∧
      g1.gLastX = 12002919 / 32768 ∧ g1.gLastY = 14003405 / 16384 ∧
      ViewManager.Mouse_Position_Callback Recorder 333 777 g1 = some g2 ∧
      received g2 = some
        [CameraCall.ProcessMouseMovement (-(87 / 8388608)) (-(53 / 8388608)),
         CameraCall.ProcessMouseMovement (-(87 / 8388608)) (-(53 / 8388608))] ∧
      received g2 ≠ some
        [CameraCall.ProcessMouseMovement (-(87 / 8388608)) (-(53 / 8388608)),
         CameraCall.ProcessMouseMovement 0 0] := by
  have hX : (333 * (9227469 / 8388608) : ℚ) = 3072747177 / 8388608 := by norm_num
  have hY : (777 * (9227469 / 8388608) : ℚ) = 7169743413 / 8388608 := by norm_num
  have hdx : (3072747177 / 8388608 - 12002919 / 32768 : ℚ) = -(87 / 8388608) := by norm_num
  have hdy : (14003405 / 16384 - 7169743413 / 8388608 : ℚ) = -(53 / 8388608) := by norm_num
  refine ⟨?_, ⟨by norm_num, by norm_num⟩, ?_⟩
  · rw [one_mul, float_tenth, float_tenth_exact,
      show (1 + 13421773 / 134217728 : ℚ) = 147639501 / 134217728 from by norm_num,
      float_one_click]
  obtain ⟨g1, h1, hc1, hx1, hy1, hf1, hs1⟩ := Mouse_Position_Callback_spec Recorder 333 777
    { (ViewManager.Constructor Recorder none (Globals.initial _)).2 with
      m_CameraSpeed := 9227469 / 8388608 } _ rfl
  simp only [ViewManager.Constructor, Globals.initial, if_true, hX, hY, double_333_scaled,
    float_333_scaled, double_777_scaled, float_777_scaled, hdx, hdy, double_333_residual,
    float_333_residual, double_777_residual, float_777_residual] at hc1 hx1 hy1 hs1
  obtain ⟨g2, h2, hc2, _, _, _, _⟩ := Mouse_Position_Callback_spec Recorder 333 777 g1 _ hc1
  rw [hf1, hs1, hx1, hy1] at hc2
  simp only [hX, hY, double_333_scaled, double_777_scaled, Bool.false_eq_true, if_false,
    hdx, hdy, double_333_residual, float_333_residual, double_777_residual,
    float_777_residual] at hc2
  refine ⟨g1, g2, h1, hs1, hx1, hy1, h2, ?_, ?_⟩
  · rw [received, hc2]; simp [Recorder]
  · rw [received, hc2]; simp [Recorder]

/-- C10 (amended): on a live camera, let a mouse event at raw (x0, y0) arrive at
speed s0, then any events other than mouse events, then a mouse event at raw
(x1, y1) at speed s1.  All calls succeed and the second event forwards
(float(X1 - float(X0)), float(float(Y0) - Y1)), where Xi, Yi are the products
xi * si, yi * si in double.  Without a scroll in between s1 = s0.  When the four
scaled coordinates and the two differences are exactly float values the offset
is (s1 * x1 - s0 * x0, s0 * y0 - s1 * y1); so at the same raw position it is
(0, 0) when s1 = s0 and the scaled coordinates are exactly float values, and it
is ((s1 - s0) * x, (s0 - s1) * y), not (0, 0), when s1 differs from s0, the
position is not the origin and those values are exactly float values. -/
theorem mouse_offset_scaled_by_speed (C : CameraClass E M) (glm : Glm M) (vm : ViewManager)
    (g : Globals E) (x0 y0 x1 y1 : ℚ) (between : List Event)
    (hcam : g.g_pCamera.isSome = true) (hbetween : ∀ e ∈ between, e.isMouse = false) :
    ∃ g1 g2 g3 cam2,
      ViewManager.Mouse_Position_Callback C x0 y0 g = some g1 ∧
      run C glm vm between g1 = some g2 ∧
      g2.g_pCamera = some cam2 ∧
      ViewManager.Mouse_Position_Callback C x1 y1 g2 = some g3 ∧
      g3.g_pCamera = some (C.ProcessMouseMovement
        (toFloat (toDouble (toDouble (x1 * g2.m_CameraSpeed) -
          toFloat (toDouble (x0 * g.m_CameraSpeed)))))
        (toFloat (toDouble (toFloat (toDouble (y0 * g.m_CameraSpeed)) -
          toDouble (y1 * g2.m_CameraSpeed)))) cam2) ∧
      ((∀ e ∈ between, e.isScroll = false) → g2.m_CameraSpeed = g.m_CameraSpeed) ∧
      (ExactFloat (x0 * g.m_CameraSpeed) → ExactFloat (y0 * g.m_CameraSpeed) →
        ExactFloat (x1 * g2.m_CameraSpeed) → ExactFloat (y1 * g2.m_CameraSpeed) →
        ExactFloat (g2.m_CameraSpeed * x1 - g.m_CameraSpeed * x0) →
        ExactFloat (g.m_CameraSpeed * y0 - g2.m_CameraSpeed * y1) →
        g3.g_pCamera = some (C.ProcessMouseMovement
          (g2.m_CameraSpeed * x1 - g.m_CameraSpeed * x0)
          (g.m_CameraSpeed * y0 - g2.m_CameraSpeed * y1) cam2)) ∧
      (x1 = x0 → y1 = y0 → g2.m_CameraSpeed = g.m_CameraSpeed →
        ExactFloat (x0 * g.m_CameraSpeed) → ExactFloat (y0 * g.m_CameraSpeed) →
        g3.g_pCamera = some (C.ProcessMouseMovement 0 0 cam2)) ∧
      (x1 = x0 → y1 = y0 → g2.m_CameraSpeed ≠ g.m_CameraSpeed → (x0 ≠ 0 ∨ y0 ≠ 0) →
        ExactFloat (x0 * g.m_CameraSpeed) → ExactFloat (y0 * g.m_CameraSpeed) →
        ExactFloat (x0 * g2.m_CameraSpeed) → ExactFloat (y0 * g2.m_CameraSpeed) →
        ExactFloat ((g2.m_CameraSpeed - g.m_CameraSpeed) * x0) →
        ExactFloat ((g.m_CameraSpeed - g2.m_CameraSpeed) * y0) →
        g3.g_pCamera = some (C.ProcessMouseMovement
          ((g2.m_CameraSpeed - g.m_CameraSpeed) * x0)
          ((g.m_CameraSpeed - g2.m_CameraSpeed) * y0) cam2) ∧
        ((g2.m_CameraSpeed - g.m_CameraSpeed) * x0 ≠ 0 ∨
          (g.m_CameraSpeed - g2.m_CameraSpeed) * y0 ≠ 0)) := by
  obtain ⟨cam, hc⟩ := Option.isSome_iff_exists.mp hcam
  obtain ⟨g1, h1, hc1, hx1, hy1, hf1, hs1⟩ := Mouse_Position_Callback_spec C x0 y0 g cam hc
  obtain ⟨g2, hrun, hc2, hx2, hy2, hf2, hs2⟩ := run_tracking C glm vm between g1 hbetween
    (by simp [hc1])
  obtain ⟨cam2, hcam2⟩ := Option.isSome_iff_exists.mp hc2
  obtain ⟨g3, h3, hc3, _, _, _, _⟩ := Mouse_Position_Callback_spec C x1 y1 g2 cam2 hcam2
  rw [hf2, hf1, hx2, hx1, hy2, hy1] at hc3
  simp only [Bool.false_eq_true, if_false] at hc3
  have hexact : ExactFloat (x0 * g.m_CameraSpeed) → ExactFloat (y0 * g.m_CameraSpeed) →
      ExactFloat (x1 * g2.m_CameraSpeed) → ExactFloat (y1 * g2.m_CameraSpeed) →
      ExactFloat (g2.m_CameraSpeed * x1 - g.m_CameraSpeed * x0) →
      ExactFloat (g.m_CameraSpeed * y0 - g2.m_CameraSpeed * y1) →
      g3.g_pCamera = some (C.ProcessMouseMovement
        (g2.m_CameraSpeed * x1 - g.m_CameraSpeed * x0)
        (g.m_CameraSpeed * y0 - g2.m_CameraSpeed * y1) cam2) := by
    intro ex0 ey0 ex1 ey1 edx edy
    rw [hc3, ex0.1, ex0.2, ey0.1, ey0.2, ex1.1, ey1.1,
      mul_comm x1, mul_comm x0, mul_comm y0, mul_comm y1,
      toFloat_toDouble_of_exact _ edx, toFloat_toDouble_of_exact _ edy]
  refine ⟨g1, g2, g3, cam2, h1, hrun, hcam2, h3, hc3, fun h => (hs2 h).trans hs1, hexact, ?_, ?_⟩
  · intro hx hy hs ex0 ey0
    subst hx hy
    rw [hc3, hs, ex0.1, ex0.2, ey0.1, ey0.2]
    simp only [sub_self, toDouble_zero, toFloat_zero]
  · intro hx hy hs hpos ex0 ey0 ex1 ey1 edx edy
    subst hx hy
    have e1 : g2.m_CameraSpeed * x1 - g.m_CameraSpeed * x1
        = (g2.m_CameraSpeed - g.m_CameraSpeed) * x1 := by ring
    have e2 : g.m_CameraSpeed * y1 - g2.m_CameraSpeed * y1
        = (g.m_CameraSpeed - g2.m_CameraSpeed) * y1 := by ring
    have h := hexact ex0 ey0 ex1 ey1 (by rw [e1]; exact edx) (by rw [e2]; exact edy)
    rw [e1, e2] at h
    refine ⟨h, ?_⟩
    have hne : g2.m_CameraSpeed - g.m_CameraSpeed ≠ 0 := sub_ne_zero.mpr hs
    have hne' : g.m_CameraSpeed - g2.m_CameraSpeed ≠ 0 := sub_ne_zero.mpr (Ne.symm hs)
    rcases hpos with h0 | h0
    · left; exact mul_ne_zero hne h0
    · right; exact mul_ne_zero hne' h0

/-- C10 (amended) on the recording camera: (10, 20) at speed 1, a scroll of +10
(speed 2), then (10, 20) again: the second event forwards (10, -20). -/
theorem mouse_offset_scaled_by_speed_witness :
    ∃ g1 g2 g3,
      ViewManager.Mouse_Position_Callback Recorder 10 20
        (ViewManager.Constructor Recorder none (Globals.initial _)).2 = some g1 ∧
      run Recorder SymGlm ⟨none, none⟩ [Event.Scroll 0 10] g1 = some g2 ∧
      g2.m_CameraSpeed = 2 ∧
      ViewManager.Mouse_Position_Callback Recorder 10 20 g2 = some g3 ∧
      ∃ log, received g2 = some log ∧
        received g3 = some (log ++ [CameraCall.ProcessMouseMovement 10 (-20)]) := by
  obtain ⟨g1, g2, g3, cam2, h1, h2, hc2, h3, _, _, hexact, _, _⟩ :=
    mouse_offset_scaled_by_speed Recorder SymGlm ⟨none, none⟩
      (ViewManager.Constructor Recorder none (Globals.initial _)).2 10 20 10 20
      [Event.Scroll 0 10] rfl (by simp [Event.isMouse])
  obtain ⟨g1', h1', _, _, _, _, hs1⟩ := Mouse_Position_Callback_spec Recorder 10 20
    (ViewManager.Constructor Recorder none (Globals.initial _)).2 _ rfl
  rw [h1, Option.some.injEq] at h1'
  subst h1'
  have hg2 := h2
  simp only [run, step, Option.bind_some, Option.some.injEq] at hg2
  have hs2 : g2.m_CameraSpeed = 2 := by
    rw [← hg2]
    simp only [ViewManager.Scroll, hs1, ViewManager.Constructor]
    norm_num
  have hs0 : (ViewManager.Constructor Recorder none (Globals.initial _)).2.m_CameraSpeed = 1 :=
    rfl
  have e10 : ExactFloat 10 := by simpa using ExactFloat_intCast 10 (by norm_num)
  have e20 : ExactFloat 20 := by simpa using ExactFloat_intCast 20 (by norm_num)
  have e40 : ExactFloat 40 := by simpa using ExactFloat_intCast 40 (by norm_num)
  have em20 : ExactFloat (-20) := by simpa using ExactFloat_intCast (-20) (by norm_num)
  have h := hexact (by rw [hs0]; norm_num; exact e10) (by rw [hs0]; norm_num; exact e20)
    (by rw [hs2]; norm_num; exact e20) (by rw [hs2]; norm_num; exact e40)
    (by rw [hs2, hs0]; norm_num; exact e10) (by rw [hs2, hs0]; norm_num; exact em20)
  rw [hs2, hs0] at h
  refine ⟨g1, g2, g3, h1, h2, hs2, h3, cam2.rest, by rw [received, hc2]; rfl, ?_⟩
  rw [received, h]
  norm_num [Recorder]

/-! ## Keyboard -/

/-- The camera after the keyboard poll is the camera after the commands of the
pressed translation keys, issued in order. -/
theorem ProcessKeyboardEvents_camera (C : CameraClass E M) (vm : ViewManager)
    (pressed : Key → Bool) (g : Globals E) (cam : Camera E) (hc : g.g_pCamera = some cam) :
    (ViewManager.ProcessKeyboardEvents C vm pressed g).1.g_pCamera =
      some (issue C (movementCommands pressed (g.gDeltaTime * g.m_CameraSpeed)) cam) := by
  unfold ViewManager.ProcessKeyboardEvents
  simp only [hc]
  cases hW : pressed Key.GLFW_KEY_W <;> cases hS : pressed Key.GLFW_KEY_S <;>
    cases hA : pressed Key.GLFW_KEY_A <;> cases hD : pressed Key.GLFW_KEY_D <;>
    cases hQ : pressed Key.GLFW_KEY_Q <;> cases hE : pressed Key.GLFW_KEY_E <;>
    cases h1 : pressed Key.GLFW_KEY_1 <;> cases h2 : pressed Key.GLFW_KEY_2 <;>
    simp [movementCommands, translationKeys, issue, hW, hS, hA, hD, hQ, hE]

/-- Commands that leave Front and Up alone leave them alone when issued in a row. -/
theorem issue_keeps_orientation (C : CameraClass E M)
    (hkeep : ∀ d v c, (C.ProcessKeyboard d v c).Front = c.Front ∧
      (C.ProcessKeyboard d v c).Up = c.Up)
    (commands : List (Camera_Movement × ℚ)) :
    ∀ cam : Camera E, (issue C commands cam).Front = cam.Front ∧
      (issue C commands cam).Up = cam.Up := by
  induction commands with
  | nil => intro cam; exact ⟨rfl, rfl⟩
  | cons c cs ih =>
    intro cam
    have h1 := ih (C.ProcessKeyboard c.1 c.2 cam)
    have h2 := hkeep c.1 c.2 cam
    exact ⟨h1.1.trans h2.1, h1.2.trans h2.2⟩

/-- C5: when the host returns no handle, CreateDisplayWindow returns null,
leaves the stored window handle as it was, and its only host calls are the
creation request, the log line and glfwTerminate: no callback is registered and
no context or blending call is made.  When the host returns a handle w, it
returns w, stores w, and makes the context current, registers the mouse-move and
the scroll callback on w and sets up blending, in that order. -/
theorem CreateDisplayWindow_outcomes (vm : ViewManager) (title : String) :
    (ViewManager.CreateDisplayWindow vm title none).1 = none ∧
    (ViewManager.CreateDisplayWindow vm title none).2.1 = vm ∧
    (ViewManager.CreateDisplayWindow vm title none).2.2 =
      [HostCall.glfwCreateWindow 1000 800 title,
       HostCall.cout "Failed to create GLFW window",
       HostCall.glfwTerminate] ∧
    HostCall.glfwTerminate ∈ (ViewManager.CreateDisplayWindow vm title none).2.2 ∧
    (∀ w cb, HostCall.glfwSetCursorPosCallback w cb ∉
      (ViewManager.CreateDisplayWindow vm title none).2.2) ∧
    (∀ w cb, HostCall.glfwSetScrollCallback w cb ∉
      (ViewManager.CreateDisplayWindow vm title none).2.2) ∧
    (∀ w, HostCall.glfwMakeContextCurrent w ∉
      (ViewManager.CreateDisplayWindow vm title none).2.2) ∧
    (∀ cap, HostCall.glEnable cap ∉ (ViewManager.CreateDisplayWindow vm title none).2.2) ∧
    (∀ sf df, HostCall.glBlendFunc sf df ∉
      (ViewManager.CreateDisplayWindow vm title none).2.2) ∧
    (∀ w : GLFWwindow,
      (ViewManager.CreateDisplayWindow vm title (some w)).1 = some w ∧
      (ViewManager.CreateDisplayWindow vm title (some w)).2.1.m_pWindow = some w ∧
      (ViewManager.CreateDisplayWindow vm title (some w)).2.1.m_pShaderManager
        = vm.m_pShaderManager ∧
      (ViewManager.CreateDisplayWindow vm title (some w)).2.2 =
        [HostCall.glfwCreateWindow 1000 800 title,
         HostCall.glfwMakeContextCurrent w,
         HostCall.glfwSetCursorPosCallback w Callback.Mouse_Position_Callback,
         HostCall.glfwSetScrollCallback w Callback.Scroll,
         HostCall.glEnable GLenum.GL_BLEND,
         HostCall.glBlendFunc GLenum.GL_SRC_ALPHA GLenum.GL_ONE_MINUS_SRC_ALPHA] ∧
      HostCall.glfwTerminate ∉ (ViewManager.CreateDisplayWindow vm title (some w)).2.2) := by
  refine ⟨rfl, rfl, rfl, ?_, ?_, ?_, ?_, ?_, ?_, ?_⟩
  · simp [ViewManager.CreateDisplayWindow]
  · intro w cb; simp [ViewManager.CreateDisplayWindow]
  · intro w cb; simp [ViewManager.CreateDisplayWindow]
  · intro w; simp [ViewManager.CreateDisplayWindow]
  · intro cap; simp [ViewManager.CreateDisplayWindow]
  · intro sf df; simp [ViewManager.CreateDisplayWindow]
  · intro w
    refine ⟨rfl, rfl, rfl, rfl, ?_⟩
    simp [ViewManager.CreateDisplayWindow]

/-! ## Frame update -/

/-- The frame update written over the two components of the keyboard poll's result. -/
theorem PrepareSceneView_eq (C : CameraClass E M) (glm : Glm M) (vm : ViewManager)
    (t : ℚ) (pressed : Key → Bool) (g : Globals E) :
    ViewManager.PrepareSceneView C glm vm t pressed g =
      match (ViewManager.ProcessKeyboardEvents C vm pressed
          { g with gDeltaTime := t - g.gLastFrame, gLastFrame := t }).1.g_pCamera with
      | none => none
      | some cam =>
        match vm.m_pShaderManager with
        | some shader =>
          some ((ViewManager.ProcessKeyboardEvents C vm pressed
              { g with gDeltaTime := t - g.gLastFrame, gLastFrame := t }).1,
            (ViewManager.ProcessKeyboardEvents C vm pressed
              { g with gDeltaTime := t - g.gLastFrame, gLastFrame := t }).2,
            [ShaderCall.setMat4Value shader "view" (C.GetViewMatrix cam),
             ShaderCall.setMat4Value shader "projection"
               (glm.perspective (glm.radians cam.Zoom) (1000 / 800) (1 / 10) 100),
             ShaderCall.setVec3Value shader "viewPosition" cam.Position])
        | none =>
          some ((ViewManager.ProcessKeyboardEvents C vm pressed
              { g with gDeltaTime := t - g.gLastFrame, gLastFrame := t }).1,
            (ViewManager.ProcessKeyboardEvents C vm pressed
              { g with gDeltaTime := t - g.gLastFrame, gLastFrame := t }).2, []) := by
  unfold ViewManager.PrepareSceneView
  norm_num [g_ViewName, g_ProjectionName, WINDOW_WIDTH, WINDOW_HEIGHT]

/-- C6: with a camera present, PrepareSceneView updates the two timing
variables, runs the keyboard poll on the result, and then, when the shader
manager is not null, publishes exactly three values, in order: the view matrix
of the camera under "view", the perspective matrix built from the camera zoom,
the aspect 1000/800 and the clip planes 0.1 and 100 under "projection", and the
camera position under "viewPosition".  When the shader manager is null it
publishes nothing and still returns normally with the same timing update and
keyboard poll done. -/
theorem PrepareSceneView_publishes (C : CameraClass E M) (glm : Glm M) (vm : ViewManager)
    (t : ℚ) (pressed : Key → Bool) (g : Globals E) (hcam : g.g_pCamera.isSome = true) :
    ∃ cam g' out,
      ViewManager.ProcessKeyboardEvents C vm pressed
        { g with gDeltaTime := t - g.gLastFrame, gLastFrame := t } = (g', out) ∧
      g'.g_pCamera = some cam ∧
      g'.gDeltaTime = t - g.gLastFrame ∧ g'.gLastFrame = t ∧
      (∀ shader, vm.m_pShaderManager = some shader →
        ViewManager.PrepareSceneView C glm vm t pressed g = some (g', out,
          [ShaderCall.setMat4Value shader "view" (C.GetViewMatrix cam),
           ShaderCall.setMat4Value shader "projection"
             (glm.perspective (glm.radians cam.Zoom) (1000 / 800) (1 / 10) 100),
           ShaderCall.setVec3Value shader "viewPosition" cam.Position])) ∧
      (vm.m_pShaderManager = none →
        ViewManager.PrepareSceneView C glm vm t pressed g = some (g', out, [])) := by
  have hf := ProcessKeyboardEvents_frame C vm pressed
    { g with gDeltaTime := t - g.gLastFrame, gLastFrame := t }
  have heq := PrepareSceneView_eq C glm vm t pressed g
  rcases hres : ViewManager.ProcessKeyboardEvents C vm pressed
    { g with gDeltaTime := t - g.gLastFrame, gLastFrame := t } with ⟨g', out⟩
  rw [hres] at hf heq
  have hsome := hf.2.2.2.2.2.2
  simp only [hcam] at hsome
  obtain ⟨cam, hc⟩ := Option.isSome_iff_exists.mp hsome
  refine ⟨cam, g', out, rfl, hc, hf.2.2.2.2.1, hf.2.2.2.2.2.1, ?_, ?_⟩
  · intro shader hsh
    rw [heq]
    simp only [hc, hsh]
  · intro hsh
    rw [heq]
    simp only [hc, hsh]

/-- C6 on the recording camera: a frame at time 0.5 with no key down and shader
manager 3 publishes the three values under "view", "projection" and
"viewPosition", in that order. -/
theorem PrepareSceneView_publishes_witness :
    ∃ g', ViewManager.PrepareSceneView Recorder SymGlm ⟨some 3, some 7⟩ (1 / 2) noKeys
        (ViewManager.Constructor Recorder (some 3) (Globals.initial _)).2 = some (g', [],
      [ShaderCall.setMat4Value 3 "view"
         (SymMat4.view ⟨1 / 2, 11 / 2, 10⟩ ⟨0, -(1 / 2), -2⟩ ⟨0, 1, 0⟩ []),
       ShaderCall.setMat4Value 3 "projection" (SymMat4.perspective 80 (1000 / 800) (1 / 10) 100),
       ShaderCall.setVec3Value 3 "viewPosition" ⟨1 / 2, 11 / 2, 10⟩]) := by
  obtain ⟨cam, g', out, hres, hc, _, _, hpub, _⟩ :=
    PrepareSceneView_publishes Recorder SymGlm ⟨some 3, some 7⟩ (1 / 2) noKeys
      (ViewManager.Constructor Recorder (some 3) (Globals.initial _)).2 rfl
  rw [ProcessKeyboardEvents_idle Recorder _ noKeys (fun _ => rfl), Prod.mk.injEq] at hres
  obtain ⟨hg, hout⟩ := hres
  refine ⟨g', ?_⟩
  rw [hpub 3 rfl, ← hout]
  rw [← hg] at hc
  simp only [ViewManager.Constructor, Option.some.injEq] at hc
  rw [← hc]
  simp [Recorder, SymGlm]

/-- C7: with a camera present and no key down, two consecutive calls of
PrepareSceneView both succeed, make no host call, and publish the same list of
values (the view matrix, projection matrix and position of the unchanged
camera); after each call the globals are the ones before it with only the frame
delta and the last-frame timestamp rewritten. -/
theorem PrepareSceneView_twice_idle (C : CameraClass E M) (glm : Glm M) (vm : ViewManager)
    (t1 t2 : ℚ) (pressed : Key → Bool) (g : Globals E) (cam : Camera E)
    (hidle : ∀ k, pressed k = false) (hcam : g.g_pCamera = some cam) :
    ∃ published,
      ViewManager.PrepareSceneView C glm vm t1 pressed g =
        some ({ g with gDeltaTime := t1 - g.gLastFrame, gLastFrame := t1 }, [], published) ∧
      ViewManager.PrepareSceneView C glm vm t2 pressed
          { g with gDeltaTime := t1 - g.gLastFrame, gLastFrame := t1 } =
        some ({ g with gDeltaTime := t2 - t1, gLastFrame := t2 }, [], published) ∧
      (∀ shader, vm.m_pShaderManager = some shader → published =
        [ShaderCall.setMat4Value shader "view" (C.GetViewMatrix cam),
         ShaderCall.setMat4Value shader "projection"
           (glm.perspective (glm.radians cam.Zoom) (1000 / 800) (1 / 10) 100),
         ShaderCall.setVec3Value shader "viewPosition" cam.Position]) ∧
      (vm.m_pShaderManager = none → published = []) := by
  refine ⟨match vm.m_pShaderManager with
    | some shader =>
      [ShaderCall.setMat4Value shader "view" (C.GetViewMatrix cam),
       ShaderCall.setMat4Value shader "projection"
         (glm.perspective (glm.radians cam.Zoom) (1000 / 800) (1 / 10) 100),
       ShaderCall.setVec3Value shader "viewPosition" cam.Position]
    | none => [], ?_, ?_, ?_, ?_⟩
  · rw [PrepareSceneView_eq, ProcessKeyboardEvents_idle C vm pressed hidle]
    simp only [hcam]
    cases vm.m_pShaderManager <;> rfl
  · rw [PrepareSceneView_eq, ProcessKeyboardEvents_idle C vm pressed hidle]
    simp only [hcam]
    cases vm.m_pShaderManager <;> rfl
  · intro shader hsh; simp only [hsh]
  · intro hsh; simp only [hsh]

/-- C7 on the recording camera: frames at times 1 and 3 with no key down publish
the same three values, and the globals afterwards differ from the constructed
ones only in frame delta 2 and last-frame time 3. -/
theorem PrepareSceneView_twice_idle_witness :
    ∃ published,
      ViewManager.PrepareSceneView Recorder SymGlm ⟨some 3, some 7⟩ 1 noKeys
          (ViewManager.Constructor Recorder (some 3) (Globals.initial _)).2 =
        some ({ (ViewManager.Constructor Recorder (some 3) (Globals.initial _)).2 with
          gDeltaTime := 1 - 0, gLastFrame := 1 }, [], published) ∧
      ViewManager.PrepareSceneView Recorder SymGlm ⟨some 3, some 7⟩ 3 noKeys
          { (ViewManager.Constructor Recorder (some 3) (Globals.initial _)).2 with
            gDeltaTime := 1 - 0, gLastFrame := 1 } =
        some ({ (ViewManager.Constructor Recorder (some 3) (Globals.initial _)).2 with
          gDeltaTime := 3 - 1, gLastFrame := 3 }, [], published) ∧
      published.length = 3 := by
  obtain ⟨published, h1, h2, h3, _⟩ :=
    PrepareSceneView_twice_idle Recorder SymGlm ⟨some 3, some 7⟩ 1 3 noKeys
      (ViewManager.Constructor Recorder (some 3) (Globals.initial _)).2 _ (fun _ => rfl) rfl
  exact ⟨published, h1, h2, by rw [h3 3 rfl]; rfl⟩

/-! ## Orientation vectors -/

/-- C9, as the claim states it, fails: the front vector the constructor assigns
is (0, -0.5, -2.0), whose squared length is 4.25 and not 1. -/
theorem Constructor_front_not_unit :
    ∃ cam, (ViewManager.Constructor Recorder none (Globals.initial _)).2.g_pCamera = some cam ∧
      cam.Front = ⟨0, -(1 / 2), -2⟩ ∧ cam.Front.length2 = 17 / 4 ∧ cam.Front.length2 ≠ 1 := by
  refine ⟨_, rfl, rfl, ?_, ?_⟩ <;> norm_num [ViewManager.Constructor, Vec3.length2]

/-- C9 (amended): the up vector the constructor assigns has squared length
exactly 1; the front vector it assigns is the direction (0, -0.5, -2.0), of
squared length 4.25; the keyboard poll changes the camera only through the
camera's own movement commands, so it leaves Front and Up as they were whenever
those commands do. -/
theorem orientation_vectors (C : CameraClass E M) (sm : Option ShaderManagerPtr)
    (pre : Globals E) :
    (∃ cam, (ViewManager.Constructor C sm pre).2.g_pCamera = some cam ∧
      cam.Up = ⟨0, 1, 0⟩ ∧ cam.Up.length2 = 1 ∧
      cam.Front = ⟨0, -(1 / 2), -2⟩ ∧ cam.Front.length2 = 17 / 4) ∧
    (∀ (vm : ViewManager) (pressed : Key → Bool) (g : Globals E) (cam : Camera E),
      g.g_pCamera = some cam →
      (∀ d v c, (C.ProcessKeyboard d v c).Front = c.Front ∧ (C.ProcessKeyboard d v c).Up = c.Up) →
      ∃ cam', (ViewManager.ProcessKeyboardEvents C vm pressed g).1.g_pCamera = some cam' ∧
        cam'.Front = cam.Front ∧ cam'.Up = cam.Up) := by
  constructor
  · refine ⟨_, rfl, rfl, ?_, rfl, ?_⟩ <;> norm_num [Vec3.length2]
  · intro vm pressed g cam hc hkeep
    have hi := issue_keeps_orientation C hkeep
      (movementCommands pressed (g.gDeltaTime * g.m_CameraSpeed)) cam
    exact ⟨_, ProcessKeyboardEvents_camera C vm pressed g cam hc, hi.1, hi.2⟩

/-- C9 (amended) on the recording camera, whose commands leave Front and Up
alone: with W down the vectors after the keyboard poll are those the
constructor assigned. -/
theorem orientation_vectors_witness :
    ∃ cam', (ViewManager.ProcessKeyboardEvents Recorder ⟨none, some 7⟩ (onlyKey Key.GLFW_KEY_W)
        (ViewManager.Constructor Recorder none (Globals.initial _)).2).1.g_pCamera = some cam' ∧
      cam'.Front = ⟨0, -(1 / 2), -2⟩ ∧ cam'.Up = ⟨0, 1, 0⟩ := by
  obtain ⟨cam', h, hF, hU⟩ :=
    (orientation_vectors Recorder none (Globals.initial _)).2 ⟨none, some 7⟩
      (onlyKey Key.GLFW_KEY_W) (ViewManager.Constructor Recorder none (Globals.initial _)).2 _ rfl
      (fun _ _ _ => ⟨rfl, rfl⟩)
  exact ⟨cam', h, hF, hU⟩

end CS330
